import Mathlib

/-!
# Decision-evidence pipeline: shallow embedding and verification

Shallow embedding of the validation-and-aggregation pipeline of
`scripts/validate_to_silver.py` and `scripts/curate_to_gold.py`.

Modelling conventions:
* JSON values parsed from an input line are the inductive `Json`; Python's
  conflation of a missing key with a `null` value under `dict.get` is kept
  (`pyGet` returns `Json.null` for a missing key), which is exactly what the
  two scripts observe.
* Python strings are Lean `String`s, but all computation is done on their
  `List Char` data so that every definition reduces in the kernel.
* Python floats are the type `PyFloat`: an exact rational `ℚ` for a finite
  value, plus the specials `nan`, `inf` and `-inf` that `float()` also
  produces (every comparison against `nan` is false, as in IEEE-754).
  `round(x, 4)` becomes round-half-to-even at 4 decimal places on the
  finite values (`pyRound4`) and is the identity on the specials.  Binary
  floating-point artefacts on finite values are outside the model.
* `json.loads` is stdlib, not repository code: an input line carries its
  parse outcome as an oracle field (`InputLine.parsed`); the repository's
  control flow (blank skipping, the non-dict check, the reject paths) is
  embedded faithfully.
* `datetime.fromisoformat` is embedded for the classic grammar
  `YYYY-MM-DD[THH:MM[:SS[.f{1-6}]]][±HH:MM]` (separator `T`, offset without
  seconds), the fragment both scripts rely on; `str.strip` strips the ASCII
  whitespace characters.
-/

/-- A JSON value as produced by `json.loads`. -/

inductive Json where
  | null : Json
  | bool (b : Bool) : Json
  | num (q : ℚ) : Json
  | str (s : String) : Json
  | arr (elems : List Json) : Json
  | obj (fields : List (String × Json)) : Json

/-- A raw record: the object form of one parsed input line. -/
abbrev RawRecord := List (String × Json)

/-- Model of `dict.get(k)`: Python returns `None` for a missing key, which the
scripts treat identically to a stored JSON `null`, so both map to `Json.null`. -/
def pyGet (r : RawRecord) (k : String) : Json :=
  match r.find? (fun kv => kv.1 = k) with
  | some kv => kv.2
  | none => Json.null

/-- Python truthiness of a JSON-decoded value (`bool(v)` / `if v:`). -/
def pyTruthy : Json → Bool
  | Json.null => false
  | Json.bool b => b
  | Json.num q => if q = 0 then false else true
  | Json.str s => !s.data.isEmpty
  | Json.arr es => !es.isEmpty
  | Json.obj fs => !fs.isEmpty

/-- ASCII whitespace recognised by the model of `str.strip()`. -/
def isSpaceChar (c : Char) : Bool :=
  c = ' ' ∨ c = '\t' ∨ c = '\n' ∨ c = '\r'

/-- Model of `str.strip()` on character data. -/
def stripChars (cs : List Char) : List Char :=
  ((cs.dropWhile isSpaceChar).reverse.dropWhile isSpaceChar).reverse

/-- Model of `str.strip()` on strings. -/
def pyStrip (s : String) : String := ⟨stripChars s.data⟩

/-- Decimal digit characters. -/
def isDig (c : Char) : Bool := 48 ≤ c.toNat ∧ c.toNat ≤ 57

/-- The digit character for `d < 10`. -/
def digitChar (d : ℕ) : Char := Char.ofNat (48 + d)

/-- Fixed-width decimal rendering, most significant digit first:
`natDigits n x` is the last `n` decimal digits of `x`, zero padded. -/
def natDigits : ℕ → ℕ → List Char
  | 0, _ => []
  | n + 1, x => digitChar (x / 10 ^ n % 10) :: natDigits n x

/-- Read exactly `n` decimal digits, accumulating onto `acc`. -/
def readN : ℕ → ℕ → List Char → Option (ℕ × List Char)
  | 0, acc, cs => some (acc, cs)
  | _ + 1, _, [] => none
  | n + 1, acc, c :: cs =>
      if isDig c then readN n (acc * 10 + (c.toNat - 48)) cs else none

/-- Consume one expected literal character. -/
def expec (c : Char) : List Char → Option (List Char)
  | c' :: cs => if c' = c then some cs else none
  | [] => none

/-- Value of a digit run, most significant first. -/
def digitsVal (ds : List Char) : ℕ :=
  ds.foldl (fun a c => a * 10 + (c.toNat - 48)) 0

/-- Model of a Python `datetime` as built by `datetime.fromisoformat`:
calendar fields plus an optional fixed UTC offset in minutes (`tzinfo`). -/
structure PyDateTime where
  year : ℕ
  month : ℕ
  day : ℕ
  hour : ℕ
  minute : ℕ
  second : ℕ
  micro : ℕ
  tz : Option ℤ
  deriving DecidableEq

/-- Gregorian leap year, as `calendar`/`datetime` define it. -/
def isLeap (y : ℕ) : Bool := y % 4 = 0 ∧ (¬ y % 100 = 0 ∨ y % 400 = 0)

/-- Days in a month of a given year. -/
def daysInMonth (y mo : ℕ) : ℕ :=
  if mo = 2 then (if isLeap y then 29 else 28)
  else if mo = 4 ∨ mo = 6 ∨ mo = 9 ∨ mo = 11 then 30
  else 31

/-- The `datetime` constructor's date range check (`MINYEAR = 1`, `MAXYEAR = 9999`). -/
def validYMD (y mo d : ℕ) : Bool :=
  1 ≤ y ∧ y ≤ 9999 ∧ 1 ≤ mo ∧ mo ≤ 12 ∧ 1 ≤ d ∧ d ≤ daysInMonth y mo

/-- The `datetime` constructor's full range check. -/
def PyDateTime.validB (dt : PyDateTime) : Bool :=
  validYMD dt.year dt.month dt.day ∧
    dt.hour ≤ 23 ∧ dt.minute ≤ 59 ∧ dt.second ≤ 59 ∧ dt.micro ≤ 999999

/-- Parse the `YYYY-MM-DD` prefix. -/
def parseYMD (cs : List Char) : Option ((ℕ × ℕ × ℕ) × List Char) := do
  let (y, cs) ← readN 4 0 cs
  let cs ← expec '-' cs
  let (mo, cs) ← readN 2 0 cs
  let cs ← expec '-' cs
  let (d, cs) ← readN 2 0 cs
  pure ((y, mo, d), cs)

/-- Parse an optional fractional-seconds part `.f{1,6}`, scaled to microseconds. -/
def parseFrac : List Char → Option (ℕ × List Char)
  | '.' :: rest =>
      let ds := rest.takeWhile isDig
      if 1 ≤ ds.length ∧ ds.length ≤ 6 then
        some (digitsVal ds * 10 ^ (6 - ds.length), rest.dropWhile isDig)
      else none
  | cs => some (0, cs)

/-- Parse `HH:MM[:SS[.ffffff]]`. -/
def parseTime (cs : List Char) : Option ((ℕ × ℕ × ℕ × ℕ) × List Char) := do
  let (h, cs) ← readN 2 0 cs
  let cs ← expec ':' cs
  let (mi, cs) ← readN 2 0 cs
  match cs with
  | ':' :: cs2 => do
      let (s, cs3) ← readN 2 0 cs2
      let (us, cs4) ← parseFrac cs3
      pure ((h, mi, s, us), cs4)
  | _ => pure ((h, mi, 0, 0), cs)

/-- Parse the magnitude `HH:MM` of a UTC offset, in minutes. -/
def parseOffMag (cs : List Char) : Option (ℕ × List Char) := do
  let (oh, cs) ← readN 2 0 cs
  let cs ← expec ':' cs
  let (om, cs) ← readN 2 0 cs
  if oh ≤ 23 ∧ om ≤ 59 then pure (oh * 60 + om, cs) else none

/-- Parse a signed UTC offset `±HH:MM`, in minutes. -/
def parseOff : List Char → Option (ℤ × List Char)
  | '+' :: cs => (parseOffMag cs).map (fun p => ((p.1 : ℤ), p.2))
  | '-' :: cs => (parseOffMag cs).map (fun p => (-(p.1 : ℤ), p.2))
  | _ => none

/-- Model of `datetime.fromisoformat` on the grammar
`YYYY-MM-DD[THH:MM[:SS[.f{1,6}]]][±HH:MM]` used by the pipeline. -/
def fromisoChars (cs : List Char) : Option PyDateTime :=
  match parseYMD cs with
  | none => none
  | some ((y, mo, d), rest) =>
    if validYMD y mo d then
      match rest with
      | [] => some ⟨y, mo, d, 0, 0, 0, 0, none⟩
      | 'T' :: rest =>
          (match parseTime rest with
           | none => none
           | some ((h, mi, s, us), rest2) =>
             if h ≤ 23 ∧ mi ≤ 59 ∧ s ≤ 59 ∧ us ≤ 999999 then
               match rest2 with
               | [] => some ⟨y, mo, d, h, mi, s, us, none⟩
               | rest3 =>
                   match parseOff rest3 with
                   | none => none
                   | some (off, rest4) =>
                       match rest4 with
                       | [] => some ⟨y, mo, d, h, mi, s, us, some off⟩
                       | _ => none
             else none)
      | _ => none
    else none

/-- Model of `date.isoformat()`: the `YYYY-MM-DD` rendering of a date. -/
def dateChars (y mo d : ℕ) : List Char :=
  natDigits 4 y ++ '-' :: natDigits 2 mo ++ '-' :: natDigits 2 d

/-- The `HH:MM:SS[.ffffff]` rendering of a time, microseconds printed
only when nonzero, exactly as `datetime.isoformat()` does. -/
def timeChars (h mi s us : ℕ) : List Char :=
  natDigits 2 h ++ ':' :: natDigits 2 mi ++ ':' :: natDigits 2 s ++
    (if us = 0 then [] else '.' :: natDigits 6 us)

/-- Model of `dt.astimezone(timezone.utc).isoformat().replace("+00:00", "Z")`:
the canonical rendering of a UTC datetime with the literal `Z` suffix. -/
def isoZChars (dt : PyDateTime) : List Char :=
  dateChars dt.year dt.month dt.day ++
    'T' :: timeChars dt.hour dt.minute dt.second dt.micro ++ ['Z']

/-- The calendar day after a date; `none` past `datetime.max`. -/
def nextDay (y mo d : ℕ) : Option (ℕ × ℕ × ℕ) :=
  if d < daysInMonth y mo then some (y, mo, d + 1)
  else if mo < 12 then some (y, mo + 1, 1)
  else if y < 9999 then some (y + 1, 1, 1)
  else none

/-- The calendar day before a date; `none` before `datetime.min`. -/
def prevDay (y mo d : ℕ) : Option (ℕ × ℕ × ℕ) :=
  if 2 ≤ d then some (y, mo, d - 1)
  else if 2 ≤ mo then some (y, mo - 1, daysInMonth y (mo - 1))
  else if 2 ≤ y then some (y - 1, 12, 31)
  else none

/-- Model of `dt.astimezone(timezone.utc)` on an offset-aware datetime:
subtract the offset, carrying at most one calendar day (offsets are under
24h); `none` models the `OverflowError` at the ends of the datetime range. -/
def toUTC (dt : PyDateTime) : Option PyDateTime :=
  match dt.tz with
  | none => none
  | some off =>
      let total : ℤ := (dt.hour * 60 + dt.minute : ℕ) - off
      let shifted : Option ((ℕ × ℕ × ℕ) × ℤ) :=
        if total < 0 then (prevDay dt.year dt.month dt.day).map (fun p => (p, total + 1440))
        else if 1440 ≤ total then (nextDay dt.year dt.month dt.day).map (fun p => (p, total - 1440))
        else some ((dt.year, dt.month, dt.day), total)
      match shifted with
      | none => none
      | some ((y, mo, d), tot) =>
          some ⟨y, mo, d, (tot / 60).toNat, (tot % 60).toNat, dt.second, dt.micro, some 0⟩

/-- Model of `raw.replace("Z", "+00:00")` under the guard `raw.endswith("Z")`: on the
grammar above only a trailing `Z` can appear in a parseable string. -/
def zFix (cs : List Char) : List Char :=
  match cs.reverse with
  | 'Z' :: _ => cs.dropLast ++ ['+', '0', '0', ':', '0', '0']
  | _ => cs

/-- The function `_parse_iso_ts` of `validate_to_silver.py`: normalize any value to a
canonical UTC ISO string with `Z` suffix, or `none` when invalid. -/
def _parse_iso_ts (v : Json) : Option String :=
  match v with
  | Json.str s =>
      let t := stripChars s.data
      if t.isEmpty then none
      else
        match fromisoChars (zFix t) with
        | none => none
        | some dt =>
            let aware := if dt.tz = none then { dt with tz := some 0 } else dt
            match toUTC aware with
            | none => none
            | some dt2 => some ⟨isoZChars dt2⟩
  | _ => none

/-- The function `_day_bucket` of `curate_to_gold.py`: the calendar day of the parsed
timestamp (no UTC conversion), or the `UNKNOWN_DAY` sentinel. -/
def _day_bucket (v : Json) : String :=
  match v with
  | Json.str s =>
      let t := stripChars s.data
      if t.isEmpty then "UNKNOWN_DAY"
      else
        match fromisoChars (zFix t) with
        | some dt => ⟨dateChars dt.year dt.month dt.day⟩
        | none => "UNKNOWN_DAY"
  | _ => "UNKNOWN_DAY"

/-- Variable-width decimal rendering of a natural number (with fuel so the
definition is structural and kernel-reducible; the fuel `n + 1` always
suffices since `n / 10 < n` for `n ≥ 10`). -/
def natStrAux : ℕ → ℕ → List Char
  | 0, _ => []
  | fuel + 1, n => if n < 10 then [digitChar n] else natStrAux fuel (n / 10) ++ [digitChar (n % 10)]

def natStr (n : ℕ) : List Char := natStrAux (n + 1) n

/-- Rendering of a rational: exact for integers; non-integer values (which a
Python float prints in decimal) are abstracted to `num/den` form.  Every
rendering is non-blank and contains no whitespace, which is all the
validator ever observes of a stringified number. -/
def ratStr (q : ℚ) : String :=
  if q.den = 1 then
    ⟨(if q.num < 0 then ['-'] else []) ++ natStr q.num.natAbs⟩
  else
    ⟨(if q.num < 0 then ['-'] else []) ++ natStr q.num.natAbs ++ '/' :: natStr q.den⟩

/-- Model of Python `str()` on JSON-decoded values.  Scalar renderings are
exact; `str` of a `list`/`dict` (Python's `repr` text) is abstracted to a
non-blank placeholder, since the validator only observes blankness,
stripping and upper-casing of such strings, never their exact text. -/
def pyStr : Json → String
  | Json.null => "None"
  | Json.bool true => "True"
  | Json.bool false => "False"
  | Json.num q => ratStr q
  | Json.str s => s
  | Json.arr _ => "[list]"
  | Json.obj _ => "[dict]"

/-- The function `_safe_str` of `validate_to_silver.py`: `"" if v is None else str(v)`. -/
def _safe_str (v : Json) : String :=
  match v with
  | Json.null => ""
  | v => pyStr v

/-- Python `str.upper()` (ASCII case mapping). -/
def pyUpper (s : String) : String := ⟨s.data.map Char.toUpper⟩

/-- A Python float as the pipeline observes it: a finite value (an exact
rational in the model) or one of the specials `nan`, `inf`, `-inf` that
`float()` also produces. -/
inductive PyFloat where
  | num (q : ℚ)
  | nan
  | inf
  | ninf
  deriving DecidableEq

/-- Python `<` on floats: the ordinary order on finite values, `-inf` below
and `inf` above every finite value, and every comparison against `nan`
false (IEEE-754). -/
def PyFloat.ltB : PyFloat → PyFloat → Bool
  | PyFloat.nan, _ => false
  | _, PyFloat.nan => false
  | PyFloat.num a, PyFloat.num b => decide (a < b)
  | PyFloat.num _, PyFloat.inf => true
  | PyFloat.num _, PyFloat.ninf => false
  | PyFloat.inf, _ => false
  | PyFloat.ninf, PyFloat.ninf => false
  | PyFloat.ninf, _ => true

/-- Python `+` on floats: `nan` is absorbing, opposite infinities give `nan`. -/
def PyFloat.add : PyFloat → PyFloat → PyFloat
  | PyFloat.num a, PyFloat.num b => PyFloat.num (a + b)
  | PyFloat.nan, _ => PyFloat.nan
  | _, PyFloat.nan => PyFloat.nan
  | PyFloat.inf, PyFloat.ninf => PyFloat.nan
  | PyFloat.ninf, PyFloat.inf => PyFloat.nan
  | PyFloat.inf, _ => PyFloat.inf
  | _, PyFloat.inf => PyFloat.inf
  | PyFloat.ninf, _ => PyFloat.ninf
  | _, PyFloat.ninf => PyFloat.ninf

/-- Python `x / n` for a positive integer count `n`: ordinary division on a
finite value, identity on the specials. -/
def PyFloat.divNat : PyFloat → ℕ → PyFloat
  | PyFloat.num a, n => PyFloat.num (a / n)
  | f, _ => f

/-- Parse an unsigned decimal literal `digits [. digits?] | . digits`
(the fragment of Python `float()` literals the pipeline relies on;
exponents and underscores are outside the model, and the special literals
are recognised separately by `parseUnsigned`). -/
def parseDecimal (cs : List Char) : Option ℚ :=
  let intPart := cs.takeWhile isDig
  let rest := cs.dropWhile isDig
  match rest with
  | [] => if intPart.isEmpty then none else some (mkRat (digitsVal intPart) 1)
  | '.' :: rest2 =>
      let frac := rest2.takeWhile isDig
      let rest3 := rest2.dropWhile isDig
      if rest3.isEmpty ∧ ¬(intPart.isEmpty ∧ frac.isEmpty) then
        some (mkRat (digitsVal intPart * 10 ^ frac.length + digitsVal frac)
          (10 ^ frac.length))
      else none
  | _ => none

/-- The part of Python `float()` after stripping and the optional sign: one
of the special literals `nan`, `inf`, `infinity` (case-insensitive; the sign
is applied to the infinities and irrelevant on `nan`), or an unsigned
decimal literal with the sign applied. -/
def parseUnsigned (cs : List Char) (neg : Bool) : Option PyFloat :=
  let low := cs.map Char.toLower
  if low = ['n', 'a', 'n'] then some PyFloat.nan
  else if low = ['i', 'n', 'f'] ∨ low = ['i', 'n', 'f', 'i', 'n', 'i', 't', 'y'] then
    some (if neg then PyFloat.ninf else PyFloat.inf)
  else (parseDecimal cs).map (fun q => PyFloat.num (if neg then -q else q))

/-- Python `float()` on a string: strip, optional sign, then a decimal or
special literal. -/
def pyFloatOfString (s : String) : Option PyFloat :=
  match stripChars s.data with
  | '+' :: cs => parseUnsigned cs false
  | '-' :: cs => parseUnsigned cs true
  | cs => parseUnsigned cs false

/-- The function `_as_float` of `validate_to_silver.py`: `float(v)` with every exception
swallowed to `None`.  `float(True) = 1.0`, `float(False) = 0.0`; `float` of
`None`, lists and dicts raises.  A JSON numeral is already a float (the
`Json` model carries the finite numerals of the strict JSON grammar). -/
def _as_float : Json → Option PyFloat
  | Json.null => none
  | Json.bool b => some (PyFloat.num (if b then 1 else 0))
  | Json.num q => some (PyFloat.num q)
  | Json.str s => pyFloatOfString s
  | Json.arr _ => none
  | Json.obj _ => none

/-- Round-half-to-even to an integer (the tie rule of Python `round`). -/
def roundHalfEven (x : ℚ) : ℤ :=
  if x - ⌊x⌋ < 1 / 2 then ⌊x⌋
  else if 1 / 2 < x - ⌊x⌋ then ⌊x⌋ + 1
  else if ⌊x⌋ % 2 = 0 then ⌊x⌋ else ⌊x⌋ + 1

/-- Model of Python `round(x, 4)` on the exact rational value. -/
def pyRound4 (x : ℚ) : ℚ := (roundHalfEven (x * 10000) : ℚ) / 10000

/-- Python `round(x, 4)` on a float: rounding on a finite value, identity on
the specials (`round(nan, 4)` is `nan`, `round(inf, 4)` is `inf`). -/
def pyRound4F : PyFloat → PyFloat
  | PyFloat.num q => PyFloat.num (pyRound4 q)
  | f => f

/-- The payload preserved on a reject: either the raw line text (the
`INVALID_JSON` path, no re-serialization) or the parsed record as
re-serialized by `json.dumps(raw, ensure_ascii=False)` (the validator path;
the serialization itself is abstracted to the record it would render). -/
inductive Payload where
  | text (s : String)
  | serialized (r : RawRecord)

/-- The validated form of a decision event (Silver Clean row). -/
structure CleanRecord where
  decision_id : String
  decision_type : String
  model_version : String
  confidence_score : PyFloat
  risk_band : String
  policy_id : String
  facility_code : String
  decision_ts : String
  input_features_hash : Json
  override_flag : Option Bool
  override_reason_code : Json
  ingested_at_utc : String

/-- A reject row.  `validate_event` itself never sets `facility_code`
(the key is absent from the dict it builds); the runner's reject path adds
it afterwards, so it is an `Option` that starts out `none`. -/
structure RejectRecord where
  rejected_at_utc : String
  decision_id : Option String
  reject_reason_code : String
  reject_reason_detail : String
  raw_payload : Payload
  facility_code : Option String

/-- The result of `validate_event`: the pair `(clean, reject)` of which
exactly one is non-`None`, every return site of the source producing
exactly one of the two. -/
inductive VResult where
  | clean (c : CleanRecord)
  | reject (r : RejectRecord)

def VALID_RISK_BANDS : List String := ["LOW", "MEDIUM", "HIGH"]

/-- Rule 3's condition: `model_version is None or (isinstance(model_version,
str) and not model_version.strip())`. -/
def blankModelVersion : Json → Bool
  | Json.null => true
  | Json.str s => pyStrip s = ""
  | _ => false

/-- The function `validate_event` of `validate_to_silver.py`.  `rejected_at` abstracts the
wall-clock `_utc_now_iso()` stamped on entry. -/
def validate_event (rejected_at : String) (raw : RawRecord) : VResult :=
  let raw_payload := Payload.serialized raw
  let decision_id : Option String :=
    let s := pyStrip (_safe_str (pyGet raw "decision_id"))
    if s = "" then none else some s
  let decision_type : Option String :=
    let s := pyStrip (_safe_str (pyGet raw "decision_type"))
    if s = "" then none else some s
  let model_version := pyGet raw "model_version"
  let facility_code_raw := pyStrip (_safe_str (pyGet raw "facility_code"))
  let facility_code := if facility_code_raw = "" then "UNKNOWN" else facility_code_raw
  let risk_band := pyUpper (pyStrip (_safe_str (pyGet raw "risk_band")))
  let policy_id : Option String :=
    let s := pyStrip (_safe_str (pyGet raw "policy_id"))
    if s = "" then none else some s
  let conf := _as_float (pyGet raw "confidence_score")
  let decision_ts := _parse_iso_ts (pyGet raw "decision_ts")
  if decision_id = none then
    .reject ⟨rejected_at, none, "MISSING_DECISION_ID",
      "decision_id is required", raw_payload, none⟩
  else if decision_type = none then
    .reject ⟨rejected_at, decision_id, "MISSING_DECISION_TYPE",
      "decision_type is required", raw_payload, none⟩
  else if blankModelVersion model_version then
    .reject ⟨rejected_at, decision_id, "MISSING_MODEL_VERSION",
      "model_version is required and must be non-empty", raw_payload, none⟩
  else if conf = none then
    .reject ⟨rejected_at, decision_id, "MISSING_CONFIDENCE_SCORE",
      "confidence_score is required and must be numeric", raw_payload, none⟩
  else if PyFloat.ltB (conf.getD (PyFloat.num 0)) (PyFloat.num 0) = true ∨
      PyFloat.ltB (PyFloat.num 1) (conf.getD (PyFloat.num 0)) = true then
    .reject ⟨rejected_at, decision_id, "INVALID_CONFIDENCE_SCORE",
      "confidence_score must be between 0 and 1", raw_payload, none⟩
  else if ¬ risk_band ∈ VALID_RISK_BANDS then
    .reject ⟨rejected_at, decision_id, "INVALID_RISK_BAND",
      "risk_band must be one of [HIGH, LOW, MEDIUM]", raw_payload, none⟩
  else if policy_id = none then
    .reject ⟨rejected_at, decision_id, "MISSING_POLICY_ID",
      "policy_id is required", raw_payload, none⟩
  else if decision_ts = none then
    .reject ⟨rejected_at, decision_id, "INVALID_DECISION_TS",
      "decision_ts must be ISO parseable", raw_payload, none⟩
  else
    .clean ⟨decision_id.getD "", decision_type.getD "",
      pyStrip (_safe_str model_version), pyRound4F (conf.getD (PyFloat.num 0)), risk_band,
      policy_id.getD "", facility_code, decision_ts.getD "",
      pyGet raw "input_features_hash",
      (match pyGet raw "override_flag" with
       | Json.null => none
       | v => some (pyTruthy v)),
      pyGet raw "override_reason_code", rejected_at⟩

/-- One physical input line together with the outcome of `json.loads` on its
stripped text.  The parse outcome is an oracle field: JSON text parsing is
stdlib, not repository code; the scripts' control flow around it (blank
skipping, the `isinstance(raw, dict)` check, the reject path) is embedded
faithfully.  `parsed = none` models a `json.loads` exception. -/
structure InputLine where
  text : String
  parsed : Option Json

/-- One iteration of the per-line loop in `main` of `validate_to_silver.py`:
skip blank lines; turn unparseable or non-object lines into `INVALID_JSON`
rejects carrying the raw (stripped) line text; otherwise validate, and on a
validator reject normalize the reason code to upper case and attach
`facility_code` (defaulted to `"UNKNOWN"`). -/
def processLine (now : String) (l : InputLine) : Option VResult :=
  let t := pyStrip l.text
  if t = "" then none
  else
    match l.parsed with
    | some (Json.obj raw) =>
        some (match validate_event now raw with
          | VResult.clean c => VResult.clean c
          | VResult.reject r =>
              let fc := pyStrip (_safe_str (pyGet raw "facility_code"))
              VResult.reject { r with
                reject_reason_code := pyUpper r.reject_reason_code,
                facility_code := some (if fc = "" then "UNKNOWN" else fc) })
    | _ =>
        some (VResult.reject ⟨now, none, "INVALID_JSON",
          "Line is not valid JSON object", Payload.text t, none⟩)

/-- The runner's loop over all lines of all input files (already flattened in
file-then-line order): the clean stream and the reject stream, in the order
written. -/
def runValidate (now : String) : List InputLine → List CleanRecord × List RejectRecord
  | [] => ([], [])
  | l :: rest =>
      let p := runValidate now rest
      match processLine now l with
      | none => p
      | some (VResult.clean c) => (c :: p.1, p.2)
      | some (VResult.reject r) => (p.1, r :: p.2)

/-- The function `main` of `validate_to_silver.py` over an ordered collection of input
files, each a list of lines. -/
def runValidateFiles (now : String) (files : List (List InputLine)) :
    List CleanRecord × List RejectRecord :=
  runValidate now files.flatten

/-- One line of `_read_jsonl` of `curate_to_gold.py`: a non-blank line that
parses to a JSON object yields its fields; everything else is skipped. -/
def readLine? (l : InputLine) : Option RawRecord :=
  if pyStrip l.text = "" then none
  else match l.parsed with
    | some (Json.obj o) => some o
    | _ => none

/-- The function `_read_jsonl` of `curate_to_gold.py`: keep only the lines that are
non-blank and parse to a JSON object; everything else is silently skipped
(a missing file is the empty line list). -/
def _read_jsonl (ls : List InputLine) : List RawRecord :=
  ls.filterMap readLine?

/-- Python `v or default` specialised to the aggregator's key expressions:
a falsy value (`None`, `False`, `0`, `""`, `[]`, `{}`) is replaced by the
default string. -/
def orDefault (v : Json) (d : String) : Json :=
  if pyTruthy v then v else Json.str d

/-- Model of `.strip()` on the result: succeeds only on a string; `none` models the
`AttributeError` a truthy non-string value raises (which would abort the
aggregation run). -/
def stripIfStr : Json → Option String
  | Json.str s => some (pyStrip s)
  | _ => none

/-- The `risk_band` key component: `(row.get("risk_band") or "UNKNOWN").strip()`. -/
def riskKey (row : RawRecord) : Option String :=
  stripIfStr (orDefault (pyGet row "risk_band") "UNKNOWN")

/-- The `model_version` key component. -/
def modelKey (row : RawRecord) : Option String :=
  stripIfStr (orDefault (pyGet row "model_version") "UNKNOWN")

/-- The rejects key component:
`(row.get("reject_reason_code") or "UNKNOWN").strip().upper()`. -/
def reasonKey (row : RawRecord) : Option String :=
  (stripIfStr (orDefault (pyGet row "reject_reason_code") "UNKNOWN")).map pyUpper

/-- The full decisions aggregation key `(day, risk_band, model_version)`. -/
def decisionKey (row : RawRecord) : Option (String × String × String) :=
  match riskKey row, modelKey row with
  | some rb, some mv => some (_day_bucket (pyGet row "decision_ts"), rb, mv)
  | _, _ => none

/-- The full rejects aggregation key `(day, reject_reason_code)`. -/
def rejectKey (row : RawRecord) : Option (String × String) :=
  match reasonKey row with
  | some rc => some (_day_bucket (pyGet row "rejected_at_utc"), rc)
  | none => none

/-- The `defaultdict(int)` bump: increment the entry of `k`, inserting it at the
end on first sight (dict insertion order). -/
def bump {α : Type} [DecidableEq α] (k : α) : List (α × ℕ) → List (α × ℕ)
  | [] => [(k, 1)]
  | (k', c) :: t => if k' = k then (k', c + 1) :: t else (k', c) :: bump k t

/-- The `defaultdict(float)` accumulation of confidence sums. -/
def addSum {α : Type} [DecidableEq α] (k : α) (q : PyFloat) :
    List (α × PyFloat) → List (α × PyFloat)
  | [] => [(k, q)]
  | (k', c) :: t => if k' = k then (k', PyFloat.add c q) :: t else (k', c) :: addSum k q t

/-- Lookup with the `defaultdict(float)` default `0.0`. -/
def lookupD {α : Type} [DecidableEq α] (m : List (α × PyFloat)) (k : α) : PyFloat :=
  ((m.find? (fun kv => kv.1 = k)).map (fun kv => kv.2)).getD (PyFloat.num 0)

structure GoldDecisionRow where
  decision_day : String
  risk_band : String
  model_version : String
  decisions_count : ℕ
  avg_confidence_score : Option PyFloat

structure GoldRejectRow where
  reject_day : String
  reject_reason_code : String
  rejects_count : ℕ

/-- Python string comparison `<` on character data: lexicographic by code
point (structurally recursive, so it evaluates in the kernel). -/
def lexLt : List Char → List Char → Bool
  | [], [] => false
  | [], _ :: _ => true
  | _ :: _, [] => false
  | a :: as, b :: bs =>
      if a.toNat < b.toNat then true
      else if b.toNat < a.toNat then false
      else lexLt as bs

/-- Python `s < t` on strings. -/
def strLt (s t : String) : Bool := lexLt s.data t.data

/-- Python tuple comparison `(a1, a2, a3) <= (b1, b2, b3)` under string
comparison, as used by `sorted` on the decisions keys (`x <= y` on the last
component is `not (y < x)`). -/
def keyLe3 (a b : String × String × String) : Prop :=
  strLt a.1 b.1 = true ∨ (a.1 = b.1 ∧ (strLt a.2.1 b.2.1 = true ∨
    (a.2.1 = b.2.1 ∧ strLt b.2.2 a.2.2 = false)))

/-- Python tuple comparison on the rejects keys. -/
def keyLe2 (a b : String × String) : Prop :=
  strLt a.1 b.1 = true ∨ (a.1 = b.1 ∧ strLt b.2 a.2 = false)

instance : DecidableRel keyLe3 := fun a b => by unfold keyLe3; infer_instance

instance : DecidableRel keyLe2 := fun a b => by unfold keyLe2; infer_instance

/-- Sort order on counted decision rows: by key (keys are unique, so the
count is never compared, exactly as in `sorted(decisions_counts.items())`). -/
def decItemLe (a b : (String × String × String) × ℕ) : Prop := keyLe3 a.1 b.1

/-- Sort order on counted reject rows. -/
def rejItemLe (a b : (String × String) × ℕ) : Prop := keyLe2 a.1 b.1

instance : DecidableRel decItemLe := fun a b => by unfold decItemLe; infer_instance

instance : DecidableRel rejItemLe := fun a b => by unfold rejItemLe; infer_instance

/-- The decisions aggregation of `main` in `curate_to_gold.py`: key every
row, accumulate counts and confidence sums (a non-coercible confidence is
skipped in the sum only), sort by key, and build the output rows.  `none`
models the `AttributeError` abort when a truthy non-string `risk_band` or
`model_version` is encountered. -/
def goldDecisions (rows : List RawRecord) : Option (List GoldDecisionRow) :=
  match rows.mapM (fun r => (decisionKey r).map (fun k => (k, r))) with
  | none => none
  | some pairs =>
      let counts := pairs.foldl (fun m kr => bump kr.1 m) []
      let sums := pairs.foldl (fun m kr =>
        match _as_float (pyGet kr.2 "confidence_score") with
        | some q => addSum kr.1 q m
        | none => m) []
      some ((counts.insertionSort decItemLe).map (fun kc =>
        { decision_day := kc.1.1
          risk_band := kc.1.2.1
          model_version := kc.1.2.2
          decisions_count := kc.2
          avg_confidence_score :=
            if kc.2 = 0 then none
            else some (pyRound4F (PyFloat.divNat (lookupD sums kc.1) kc.2)) }))

/-- The rejects aggregation of `main` in `curate_to_gold.py`. -/
def goldRejects (rows : List RawRecord) : Option (List GoldRejectRow) :=
  match rows.mapM (fun r => (rejectKey r).map (fun k => (k, r))) with
  | none => none
  | some pairs =>
      let counts := pairs.foldl (fun m kr => bump kr.1 m) []
      some ((counts.insertionSort rejItemLe).map (fun kc =>
        { reject_day := kc.1.1
          reject_reason_code := kc.1.2
          rejects_count := kc.2 }))

/-- The whole of `main` in `curate_to_gold.py`: read both streams, aggregate
both tables. -/
def curate_to_gold (silverLines rejectLines : List InputLine) :
    Option (List GoldDecisionRow × List GoldRejectRow) :=
  match goldDecisions (_read_jsonl silverLines), goldRejects (_read_jsonl rejectLines) with
  | some a, some b => some (a, b)
  | _, _ => none

/-- The reject reason code of a validation result, `none` for a clean record. -/
def VResult.rejectCode : VResult → Option String
  | VResult.clean _ => none
  | VResult.reject r => some r.reject_reason_code

/-- The contract table of §4.2, read off the spec: the eight rules in their
published priority order, each with its reason code; the result is the code
of the first failing rule, or `none` when all pass.  The individual field
conditions are the source's own predicates. -/
def ruleFailure (raw : RawRecord) : Option String :=
  if pyStrip (_safe_str (pyGet raw "decision_id")) = "" then some "MISSING_DECISION_ID"
  else if pyStrip (_safe_str (pyGet raw "decision_type")) = "" then some "MISSING_DECISION_TYPE"
  else if blankModelVersion (pyGet raw "model_version") then some "MISSING_MODEL_VERSION"
  else if _as_float (pyGet raw "confidence_score") = none then some "MISSING_CONFIDENCE_SCORE"
  else if PyFloat.ltB ((_as_float (pyGet raw "confidence_score")).getD (PyFloat.num 0))
        (PyFloat.num 0) = true ∨
      PyFloat.ltB (PyFloat.num 1)
        ((_as_float (pyGet raw "confidence_score")).getD (PyFloat.num 0)) = true then
    some "INVALID_CONFIDENCE_SCORE"
  else if ¬ pyUpper (pyStrip (_safe_str (pyGet raw "risk_band"))) ∈ VALID_RISK_BANDS then
    some "INVALID_RISK_BAND"
  else if pyStrip (_safe_str (pyGet raw "policy_id")) = "" then some "MISSING_POLICY_ID"
  else if _parse_iso_ts (pyGet raw "decision_ts") = none then some "INVALID_DECISION_TS"
  else none

/-- The day-of composition the spec describes for the aggregator: the
calendar day of the §4.1-normalized timestamp — its leading `YYYY-MM-DD` —
or the sentinel day when normalization fails. -/
def dayOfNormalized (v : Json) : String :=
  match _parse_iso_ts v with
  | some ts => ⟨ts.data.take 10⟩
  | none => "UNKNOWN_DAY"

theorem digitChar_spec {d : ℕ} (h : d < 10) :
    isDig (digitChar d) = true ∧ (digitChar d).toNat - 48 = d := by
  interval_cases d <;> exact ⟨rfl, rfl⟩

theorem natDigits_length (n x : ℕ) : (natDigits n x).length = n := by
  induction n generalizing x with
  | zero => rfl
  | succ n ih => simp [natDigits, ih]

theorem natDigits_all_dig (n x : ℕ) : ∀ c ∈ natDigits n x, isDig c = true := by
  induction n generalizing x with
  | zero => intro c hc; simp [natDigits] at hc
  | succ n ih =>
      intro c hc
      simp only [natDigits, List.mem_cons] at hc
      rcases hc with hc | hc
      · subst hc; exact (digitChar_spec (Nat.mod_lt _ (by norm_num))).1
      · exact ih x c hc

theorem readN_natDigits (n : ℕ) (x acc : ℕ) (rest : List Char) :
    readN n acc (natDigits n x ++ rest) = some (acc * 10 ^ n + x % 10 ^ n, rest) := by
  induction n generalizing x acc with
  | zero => simp [natDigits, readN, Nat.mod_one]
  | succ n ih =>
      have hd : x / 10 ^ n % 10 < 10 := Nat.mod_lt _ (by norm_num)
      obtain ⟨h1, h2⟩ := digitChar_spec hd
      simp only [natDigits, List.cons_append, readN, h1, if_true, h2,
        List.append_eq, ih, Option.some.injEq, Prod.mk.injEq]
      refine ⟨?_, trivial⟩
      rw [pow_succ, Nat.mod_mul]
      ring

theorem digitsVal_natDigits (n x : ℕ) :
    digitsVal (natDigits n x) = x % 10 ^ n := by
  have key : ∀ m y a : ℕ,
      (natDigits m y).foldl (fun b c => b * 10 + (c.toNat - 48)) a
        = a * 10 ^ m + y % 10 ^ m := by
    intro m
    induction m with
    | zero => intro y a; simp [natDigits, Nat.mod_one]
    | succ m ih =>
        intro y a
        have hd : y / 10 ^ m % 10 < 10 := Nat.mod_lt _ (by norm_num)
        obtain ⟨_, h2⟩ := digitChar_spec hd
        simp only [natDigits, List.foldl_cons, h2, ih]
        have hmul : y % 10 ^ (m + 1) = y % 10 ^ m + 10 ^ m * (y / 10 ^ m % 10) := by
          rw [pow_succ, Nat.mod_mul]
        rw [hmul]
        ring
  simpa using key n x 0

theorem dropWhile_eq_self_of_all {p : Char → Bool} :
    ∀ l : List Char, (∀ c ∈ l, p c = false) → l.dropWhile p = l := by
  intro l h
  cases l with
  | nil => rfl
  | cons c cs => simp [List.dropWhile_cons, h c (List.mem_cons_self c cs)]

theorem stripChars_eq_self (l : List Char) (h : ∀ c ∈ l, isSpaceChar c = false) :
    stripChars l = l := by
  unfold stripChars
  rw [dropWhile_eq_self_of_all l h,
    dropWhile_eq_self_of_all l.reverse (fun c hc => h c (List.mem_reverse.mp hc)),
    List.reverse_reverse]

theorem takeWhile_append_stop {p : Char → Bool} (l : List Char) (c : Char)
    (r : List Char) (hl : ∀ a ∈ l, p a = true) (hc : p c = false) :
    (l ++ c :: r).takeWhile p = l ∧ (l ++ c :: r).dropWhile p = c :: r := by
  induction l with
  | nil => simp [List.takeWhile_cons, List.dropWhile_cons, hc]
  | cons a l ih =>
      have ha : p a = true := hl a (List.mem_cons_self a l)
      obtain ⟨h1, h2⟩ := ih (fun b hb => hl b (List.mem_cons_of_mem a hb))
      simp [List.takeWhile_cons, List.dropWhile_cons, ha, h1, h2]

theorem isDig_not_space {c : Char} (h : isDig c = true) : isSpaceChar c = false := by
  simp only [isDig, decide_eq_true_eq] at h
  simp only [isSpaceChar, Bool.decide_or, decide_eq_false_iff_not, not_or,
    Bool.or_eq_false_iff, decide_eq_true_eq]
  refine ⟨?_, ?_, ?_, ?_⟩ <;>
    · intro he; subst he; exact absurd h (by decide)

theorem readN_natDigits0 (n x : ℕ) (rest : List Char) (h : x < 10 ^ n) :
    readN n 0 (natDigits n x ++ rest) = some (x, rest) := by
  rw [readN_natDigits]
  simp [Nat.mod_eq_of_lt h]

theorem expec_cons (c : Char) (rest : List Char) : expec c (c :: rest) = some rest := by
  simp [expec]

theorem parseYMD_roundtrip (y mo d : ℕ) (rest : List Char)
    (hy : y < 10 ^ 4) (hmo : mo < 10 ^ 2) (hd : d < 10 ^ 2) :
    parseYMD (dateChars y mo d ++ rest) = some ((y, mo, d), rest) := by
  have e : dateChars y mo d ++ rest
      = natDigits 4 y ++ ('-' :: (natDigits 2 mo ++ ('-' :: (natDigits 2 d ++ rest)))) := by
    simp [dateChars]
  rw [e]
  simp [parseYMD, readN_natDigits0 _ _ _ hy, readN_natDigits0 _ _ _ hmo,
    readN_natDigits0 _ _ _ hd, expec_cons]

theorem parseTime_roundtrip (h mi s us : ℕ) (rest : List Char)
    (hh : h < 10 ^ 2) (hmi : mi < 10 ^ 2) (hs : s < 10 ^ 2) (hus : us < 10 ^ 6) :
    parseTime (timeChars h mi s us ++ '+' :: rest)
      = some ((h, mi, s, us), '+' :: rest) := by
  by_cases h0 : us = 0
  · subst h0
    have e : timeChars h mi s 0 ++ '+' :: rest
        = natDigits 2 h ++ (':' :: (natDigits 2 mi ++ (':' :: (natDigits 2 s ++ '+' :: rest)))) := by
      simp [timeChars]
    rw [e]
    simp [parseTime, readN_natDigits0 _ _ _ hh, readN_natDigits0 _ _ _ hmi,
      readN_natDigits0 _ _ _ hs, expec_cons, parseFrac]
  · rw [show (10:ℕ) ^ 6 = 1000000 from by norm_num] at hus
    have e : timeChars h mi s us ++ '+' :: rest
        = natDigits 2 h ++ (':' :: (natDigits 2 mi ++ (':' ::
            (natDigits 2 s ++ ('.' :: (natDigits 6 us ++ '+' :: rest)))))) := by
      simp [timeChars, h0]
    rw [e]
    obtain ⟨ht, hdrop⟩ := takeWhile_append_stop (natDigits 6 us) '+' rest
      (natDigits_all_dig 6 us) (by decide)
    simp [parseTime, readN_natDigits0 _ _ _ hh, readN_natDigits0 _ _ _ hmi,
      readN_natDigits0 _ _ _ hs, expec_cons, parseFrac, ht, hdrop,
      natDigits_length, digitsVal_natDigits, Nat.mod_eq_of_lt hus]

theorem parseOff_zero (rest : List Char) :
    parseOff ('+' :: '0' :: '0' :: ':' :: '0' :: '0' :: rest) = some (0, rest) := by
  simp [parseOff, parseOffMag, readN, expec, isDig, digitChar]

theorem zFix_concat (l : List Char) :
    zFix (l ++ ['Z']) = l ++ ['+', '0', '0', ':', '0', '0'] := by
  unfold zFix
  rw [List.reverse_append]
  simp only [List.reverse_cons, List.reverse_nil, List.nil_append, List.singleton_append]
  rw [List.dropLast_concat]

theorem fromiso_isoZ (dt : PyDateTime) (hv : dt.validB = true) :
    fromisoChars (zFix (isoZChars dt))
      = some ⟨dt.year, dt.month, dt.day, dt.hour, dt.minute, dt.second, dt.micro, some 0⟩ := by
  obtain ⟨y, mo, d, h, mi, s, us, tz⟩ := dt
  simp only [PyDateTime.validB, validYMD, decide_eq_true_eq] at hv
  obtain ⟨⟨hy1, hy2, hmo1, hmo2, hd1, hd2⟩, hh, hmi, hs, hus⟩ := hv
  have e1 : isoZChars ⟨y, mo, d, h, mi, s, us, tz⟩
      = (dateChars y mo d ++ 'T' :: timeChars h mi s us) ++ ['Z'] := by
    simp [isoZChars]
  rw [e1, zFix_concat]
  have e2 : (dateChars y mo d ++ 'T' :: timeChars h mi s us) ++ ['+', '0', '0', ':', '0', '0']
      = dateChars y mo d ++ 'T' :: (timeChars h mi s us ++ '+' :: ['0', '0', ':', '0', '0']) := by
    simp
  rw [e2]
  have hvymd : validYMD y mo d = true := by
    simp only [validYMD, decide_eq_true_eq]
    exact ⟨hy1, hy2, hmo1, hmo2, hd1, hd2⟩
  have hdm : d < 10 ^ 2 := by
    have h31 : daysInMonth y mo ≤ 31 := by
      unfold daysInMonth
      split_ifs <;> norm_num
    omega
  simp [fromisoChars,
    parseYMD_roundtrip y mo d _ (by omega) (by omega) hdm,
    hvymd,
    parseTime_roundtrip h mi s us _ (by omega) (by omega) (by omega) (by omega),
    (by omega : h ≤ 23), (by omega : mi ≤ 59), (by omega : s ≤ 59), (by omega : us ≤ 999999),
    parseOff_zero]

theorem daysInMonth_bounds (y mo : ℕ) :
    1 ≤ daysInMonth y mo ∧ daysInMonth y mo ≤ 31 := by
  unfold daysInMonth
  split_ifs <;> omega

theorem parseOffMag_inv {cs : List Char} {m : ℕ} {rest : List Char}
    (h : parseOffMag cs = some (m, rest)) : m ≤ 1439 := by
  simp only [parseOffMag, Option.bind_eq_bind', Option.bind_eq_some'] at h
  obtain ⟨⟨oh, cs1⟩, -, cs2, -, ⟨om, cs3⟩, -, h4⟩ := h
  split_ifs at h4 with hb
  simp only [pure, Option.some.injEq, Prod.mk.injEq] at h4
  omega

theorem parseOff_inv {cs : List Char} {off : ℤ} {rest : List Char}
    (h : parseOff cs = some (off, rest)) : off.natAbs ≤ 1439 := by
  unfold parseOff at h
  split at h
  · simp only [Option.map_eq_some'] at h
    obtain ⟨⟨m, r⟩, h1, h2⟩ := h
    have hm := parseOffMag_inv h1
    simp only [Prod.mk.injEq] at h2
    obtain ⟨h2, -⟩ := h2
    subst h2
    simpa using hm
  · simp only [Option.map_eq_some'] at h
    obtain ⟨⟨m, r⟩, h1, h2⟩ := h
    have hm := parseOffMag_inv h1
    simp only [Prod.mk.injEq] at h2
    obtain ⟨h2, -⟩ := h2
    subst h2
    simpa using hm
  · exact absurd h (by simp)

theorem fromisoChars_inv {cs : List Char} {dt : PyDateTime}
    (h : fromisoChars cs = some dt) :
    dt.validB = true ∧ (∀ off, dt.tz = some off → off.natAbs ≤ 1439) := by
  unfold fromisoChars at h
  split at h
  · exact absurd h (by simp)
  · rename_i y mo d rest1 heq1
    split_ifs at h with hymd
    split at h
    · simp only [Option.some.injEq] at h
      subst h
      refine ⟨?_, by simp⟩
      simp only [PyDateTime.validB, decide_eq_true_eq]
      exact ⟨hymd, by omega, by omega, by omega, by omega⟩
    · split at h
      · exact absurd h (by simp)
      · rename_i h' mi s us rest2 heq2
        split_ifs at h with htime
        split at h
        · simp only [Option.some.injEq] at h
          subst h
          refine ⟨?_, by simp⟩
          simp only [PyDateTime.validB, decide_eq_true_eq]
          exact ⟨hymd, by omega, by omega, by omega, by omega⟩
        · split at h
          · exact absurd h (by simp)
          · rename_i rest3 hne off rest4 heq3
            split at h
            · simp only [Option.some.injEq] at h
              subst h
              refine ⟨?_, ?_⟩
              · simp only [PyDateTime.validB, decide_eq_true_eq]
                exact ⟨hymd, by omega, by omega, by omega, by omega⟩
              · intro o ho
                simp only [Option.some.injEq] at ho
                subst ho
                exact parseOff_inv heq3
            · exact absurd h (by simp)
    · exact absurd h (by simp)

theorem nextDay_valid {y mo d y' mo' d' : ℕ} (hv : validYMD y mo d = true)
    (h : nextDay y mo d = some (y', mo', d')) : validYMD y' mo' d' = true := by
  simp only [validYMD, decide_eq_true_eq] at hv ⊢
  obtain ⟨hdm1, hdm2⟩ := daysInMonth_bounds y' mo'
  unfold nextDay at h
  split_ifs at h with h1 h2 h3 <;>
    · simp only [Option.some.injEq, Prod.mk.injEq] at h
      obtain ⟨e1, e2, e3⟩ := h
      subst e1; subst e2; subst e3
      obtain ⟨hdm1', hdm2'⟩ := daysInMonth_bounds y mo
      omega

theorem prevDay_valid {y mo d y' mo' d' : ℕ} (hv : validYMD y mo d = true)
    (h : prevDay y mo d = some (y', mo', d')) : validYMD y' mo' d' = true := by
  simp only [validYMD, decide_eq_true_eq] at hv ⊢
  unfold prevDay at h
  split_ifs at h with h1 h2 h3 <;>
    · simp only [Option.some.injEq, Prod.mk.injEq] at h
      obtain ⟨e1, e2, e3⟩ := h
      subst e1; subst e2; subst e3
      first
        | (obtain ⟨hdm1', hdm2'⟩ := daysInMonth_bounds y mo; omega)
        | (obtain ⟨hdm1', hdm2'⟩ := daysInMonth_bounds y (mo - 1); omega)
        | (have h12 : daysInMonth (y - 1) 12 = 31 := by simp [daysInMonth]
           omega)

theorem toUTC_valid {dt dt2 : PyDateTime} (hv : dt.validB = true)
    (hb : ∀ off, dt.tz = some off → off.natAbs ≤ 1439)
    (h : toUTC dt = some dt2) :
    dt2.validB = true ∧ dt2.tz = some 0 ∧
      dt2.second = dt.second ∧ dt2.micro = dt.micro := by
  obtain ⟨y, mo, d, hr, mi, s, us, tz⟩ := dt
  simp only [PyDateTime.validB, decide_eq_true_eq] at hv
  obtain ⟨hymd, hh, hmi, hs, hus⟩ := hv
  unfold toUTC at h
  match tz, h with
  | some off, h =>
      have hoffb : off.natAbs ≤ 1439 := hb off rfl
      simp only at h
      set total : ℤ := ((hr * 60 + mi : ℕ) : ℤ) - off with htotal
      have htb : -1439 ≤ total ∧ total ≤ 2878 := by
        constructor <;> · simp [htotal]; omega
      split_ifs at h with hlt hge
      · cases hp : prevDay y mo d with
        | none => rw [hp] at h; exact absurd h (by simp)
        | some p =>
            obtain ⟨y', mo', d'⟩ := p
            rw [hp] at h
            simp only [Option.map_some', Option.some.injEq] at h
            subst h
            have hv' := prevDay_valid hymd hp
            refine ⟨?_, rfl, rfl, rfl⟩
            simp only [PyDateTime.validB, decide_eq_true_eq]
            exact ⟨hv', by omega, by omega, hs, hus⟩
      · cases hp : nextDay y mo d with
        | none => rw [hp] at h; exact absurd h (by simp)
        | some p =>
            obtain ⟨y', mo', d'⟩ := p
            rw [hp] at h
            simp only [Option.map_some', Option.some.injEq] at h
            subst h
            have hv' := nextDay_valid hymd hp
            refine ⟨?_, rfl, rfl, rfl⟩
            simp only [PyDateTime.validB, decide_eq_true_eq]
            exact ⟨hv', by omega, by omega, hs, hus⟩
      · simp only [Option.some.injEq] at h
        subst h
        refine ⟨?_, rfl, rfl, rfl⟩
        simp only [PyDateTime.validB, decide_eq_true_eq]
        exact ⟨hymd, by omega, by omega, hs, hus⟩

theorem parse_iso_ts_shape {v : Json} {ts : String}
    (h : _parse_iso_ts v = some ts) :
    ∃ dt : PyDateTime, dt.validB = true ∧ dt.tz = some 0 ∧ ts = ⟨isoZChars dt⟩ := by
  unfold _parse_iso_ts at h
  split at h
  · rename_i s
    simp only at h
    split_ifs at h with hemp
    split at h
    · exact absurd h (by simp)
    · rename_i dt heqp
      split at h
      · exact absurd h (by simp)
      · rename_i dt2 hequ
        simp only [Option.some.injEq] at h
        subst h
        obtain ⟨hdv, hdb⟩ := fromisoChars_inv heqp
        have haw : (if dt.tz = none then { dt with tz := some 0 } else dt).validB = true := by
          split <;> simp_all [PyDateTime.validB]
        have hawb : ∀ off, (if dt.tz = none then { dt with tz := some 0 } else dt).tz = some off →
            off.natAbs ≤ 1439 := by
          split
          · intro o ho
            simp only [Option.some.injEq] at ho
            subst ho
            simp
          · exact hdb
        obtain ⟨h1, h2, -, -⟩ := toUTC_valid haw hawb hequ
        exact ⟨dt2, h1, h2, rfl⟩
  · exact absurd h (by simp)

theorem stripChars_sandwich (c1 c2 : Char) (mid : List Char)
    (h1 : isSpaceChar c1 = false) (h2 : isSpaceChar c2 = false) :
    stripChars (c1 :: mid ++ [c2]) = c1 :: mid ++ [c2] := by
  unfold stripChars
  have e1 : (c1 :: mid ++ [c2]).dropWhile isSpaceChar = c1 :: mid ++ [c2] := by
    simp [List.dropWhile_cons, h1]
  rw [e1]
  have e2 : (c1 :: mid ++ [c2]).reverse = c2 :: (mid.reverse ++ [c1]) := by
    simp
  rw [e2]
  simp [List.dropWhile_cons, h2]

theorem isoZChars_shape (dt : PyDateTime) :
    isoZChars dt = digitChar (dt.year / 10 ^ 3 % 10) ::
      ((natDigits 3 dt.year ++ '-' :: natDigits 2 dt.month ++ '-' :: natDigits 2 dt.day ++
        'T' :: timeChars dt.hour dt.minute dt.second dt.micro) ++ ['Z']) := by
  simp [isoZChars, dateChars]
  rw [show natDigits 4 dt.year = digitChar (dt.year / 10 ^ 3 % 10) :: natDigits 3 dt.year
    from rfl]
  simp

theorem stripChars_isoZ (dt : PyDateTime) :
    stripChars (isoZChars dt) = isoZChars dt := by
  rw [isoZChars_shape]
  exact stripChars_sandwich _ 'Z' _
    (isDig_not_space (digitChar_spec (Nat.mod_lt _ (by norm_num))).1) (by decide)

theorem isoZ_take10 (dt : PyDateTime) :
    (isoZChars dt).take 10 = dateChars dt.year dt.month dt.day := by
  have hl : (dateChars dt.year dt.month dt.day).length = 10 := by
    simp [dateChars, natDigits_length]
  rw [isoZChars]
  exact List.take_left' hl

theorem day_bucket_isoZ (dt : PyDateTime) (hv : dt.validB = true) :
    _day_bucket (Json.str ⟨isoZChars dt⟩) = ⟨dateChars dt.year dt.month dt.day⟩ := by
  unfold _day_bucket
  simp only
  rw [stripChars_isoZ]
  have hne : (isoZChars dt).isEmpty = false := by
    rw [isoZChars_shape]
    rfl
  rw [hne]
  simp only [Bool.false_eq_true, if_false]
  rw [fromiso_isoZ dt hv]

theorem roundHalfEven_intCast (k : ℤ) : roundHalfEven (k : ℚ) = k := by
  unfold roundHalfEven
  norm_num [Int.floor_intCast]

theorem pyRound4_idem (x : ℚ) : pyRound4 (pyRound4 x) = pyRound4 x := by
  unfold pyRound4
  have e : ((roundHalfEven (x * 10000) : ℚ) / 10000) * 10000
      = (roundHalfEven (x * 10000) : ℚ) := by
    field_simp
  rw [e, roundHalfEven_intCast]

theorem roundHalfEven_nonneg {x : ℚ} (h : 0 ≤ x) : 0 ≤ roundHalfEven x := by
  unfold roundHalfEven
  have hf : (0 : ℤ) ≤ ⌊x⌋ := Int.floor_nonneg.mpr h
  split_ifs <;> omega

theorem roundHalfEven_le {x : ℚ} {N : ℤ} (h : x ≤ N) : roundHalfEven x ≤ N := by
  unfold roundHalfEven
  have hfle : ⌊x⌋ ≤ N := by
    have := Int.floor_le_floor h
    simpa using this
  have hxf : (⌊x⌋ : ℚ) ≤ x := Int.floor_le x
  split_ifs with h1 h2 h3
  · exact hfle
  · by_cases he : ⌊x⌋ = N
    · exfalso
      rw [he] at h2
      have : x - (N : ℚ) ≤ 0 := by linarith
      linarith
    · omega
  · exact hfle
  · by_cases he : ⌊x⌋ = N
    · exfalso
      rw [he] at h1
      have : x - (N : ℚ) < 1 / 2 := by linarith
      exact h1 this
    · omega

theorem pyRound4_bounds {q : ℚ} (h0 : 0 ≤ q) (h1 : q ≤ 1) :
    0 ≤ pyRound4 q ∧ pyRound4 q ≤ 1 := by
  unfold pyRound4
  have ha : (0 : ℚ) ≤ q * 10000 := by positivity
  have hb : q * 10000 ≤ ((10000 : ℤ) : ℚ) := by push_cast; linarith
  have h2 := roundHalfEven_nonneg ha
  have h3 := roundHalfEven_le hb
  constructor
  · exact div_nonneg (by exact_mod_cast h2) (by norm_num)
  · rw [div_le_one (by norm_num)]
    exact_mod_cast h3

theorem natStrAux_all_dig (fuel : ℕ) : ∀ n, ∀ c ∈ natStrAux fuel n, isDig c = true := by
  induction fuel with
  | zero => intro n c hc; simp [natStrAux] at hc
  | succ fuel ih =>
      intro n c hc
      unfold natStrAux at hc
      split_ifs at hc with hn
      · simp only [List.mem_singleton] at hc
        subst hc
        exact (digitChar_spec hn).1
      · simp only [List.mem_append, List.mem_singleton] at hc
        rcases hc with hc | hc
        · exact ih (n / 10) c hc
        · subst hc
          exact (digitChar_spec (Nat.mod_lt _ (by norm_num))).1

theorem natStr_ne_nil (n : ℕ) : natStr n ≠ [] := by
  unfold natStr natStrAux
  split_ifs <;> simp

theorem ratStr_all_nonspace (q : ℚ) :
    ∀ c ∈ (ratStr q).data, isSpaceChar c = false := by
  intro c hc
  have hdig : ∀ m, c ∈ natStr m → isSpaceChar c = false := fun m hm =>
    isDig_not_space (natStrAux_all_dig (m + 1) m c hm)
  unfold ratStr at hc
  split_ifs at hc <;>
    simp only [List.mem_append, List.mem_cons, List.mem_singleton,
      List.not_mem_nil, false_or, or_false] at hc <;>
    · repeat
        first
          | exact hdig _ hc
          | (subst hc; decide)
          | (rcases hc with hc | hc)

theorem ratStr_data_ne_nil (q : ℚ) : (ratStr q).data ≠ [] := by
  unfold ratStr
  split_ifs <;> simp [natStr_ne_nil]

theorem blankMV_false_strip_ne {v : Json} (h : blankModelVersion v = false) :
    pyStrip (_safe_str v) ≠ "" := by
  cases v with
  | null => simp [blankModelVersion] at h
  | bool b => cases b <;> exact (by decide)
  | num q =>
      have hne : stripChars (ratStr q).data = (ratStr q).data :=
        stripChars_eq_self _ (ratStr_all_nonspace q)
      show pyStrip (ratStr q) ≠ ""
      unfold pyStrip
      rw [hne]
      intro hcon
      exact ratStr_data_ne_nil q (congrArg String.data hcon)
  | str s =>
      simp only [blankModelVersion, decide_eq_false_iff_not] at h
      exact h
  | arr es => exact (by decide : pyStrip "[list]" ≠ "")
  | obj fs => exact (by decide : pyStrip "[dict]" ≠ "")

theorem rejectCode_eq_ruleFailure (now : String) (raw : RawRecord) :
    (validate_event now raw).rejectCode = ruleFailure raw := by
  by_cases h1 : pyStrip (_safe_str (pyGet raw "decision_id")) = ""
  · simp [validate_event, ruleFailure, h1, VResult.rejectCode]
  by_cases h2 : pyStrip (_safe_str (pyGet raw "decision_type")) = ""
  · simp [validate_event, ruleFailure, h1, h2, VResult.rejectCode]
  by_cases h3 : blankModelVersion (pyGet raw "model_version") = true
  · simp [validate_event, ruleFailure, h1, h2, h3, VResult.rejectCode]
  by_cases h4 : _as_float (pyGet raw "confidence_score") = none
  · simp [validate_event, ruleFailure, h1, h2, h3, h4, VResult.rejectCode]
  by_cases h5 : PyFloat.ltB ((_as_float (pyGet raw "confidence_score")).getD (PyFloat.num 0))
        (PyFloat.num 0) = true ∨
      PyFloat.ltB (PyFloat.num 1)
        ((_as_float (pyGet raw "confidence_score")).getD (PyFloat.num 0)) = true
  · simp [validate_event, ruleFailure, h1, h2, h3, h4, h5, VResult.rejectCode]
  by_cases h6 : pyUpper (pyStrip (_safe_str (pyGet raw "risk_band"))) ∈ VALID_RISK_BANDS
  on_goal 2 =>
    simp [validate_event, ruleFailure, h1, h2, h3, h4, h5, h6, VResult.rejectCode]
  by_cases h7 : pyStrip (_safe_str (pyGet raw "policy_id")) = ""
  · simp [validate_event, ruleFailure, h1, h2, h3, h4, h5, h6, h7, VResult.rejectCode]
  by_cases h8 : _parse_iso_ts (pyGet raw "decision_ts") = none
  · simp [validate_event, ruleFailure, h1, h2, h3, h4, h5, h6, h7, h8, VResult.rejectCode]
  · simp [validate_event, ruleFailure, h1, h2, h3, h4, h5, h6, h7, h8, VResult.rejectCode]

/-- C1: the validator evaluates the eight contract rules in the fixed
priority order and rejects with the code of the first failing rule; in
particular a record with a blank `decision_id` always rejects with
`MISSING_DECISION_ID`, whatever the state of `decision_ts`. -/
theorem C1_priority_order (now : String) (raw : RawRecord) :
    (validate_event now raw).rejectCode = ruleFailure raw ∧
    (pyStrip (_safe_str (pyGet raw "decision_id")) = "" →
      (validate_event now raw).rejectCode = some "MISSING_DECISION_ID") := by
  refine ⟨rejectCode_eq_ruleFailure now raw, fun h1 => ?_⟩
  rw [rejectCode_eq_ruleFailure]
  simp [ruleFailure, h1]

/-- Witness for `C1_priority_order`: a record with no `decision_id` and an
unparseable `decision_ts` rejects with `MISSING_DECISION_ID`, not
`INVALID_DECISION_TS`. -/
theorem C1_priority_order_witness :
    _parse_iso_ts (pyGet [("decision_ts", Json.str "not-a-ts")] "decision_ts") = none ∧
    (validate_event "t0" [("decision_ts", Json.str "not-a-ts")]).rejectCode
      = some "MISSING_DECISION_ID" :=
  ⟨by rfl, (C1_priority_order "t0" [("decision_ts", Json.str "not-a-ts")]).2 (by rfl)⟩

theorem processLine_none_iff (now : String) (l : InputLine) :
    processLine now l = none ↔ pyStrip l.text = "" := by
  unfold processLine
  simp only []
  split_ifs with h
  · simp [h]
  · cases hp : l.parsed with
    | none => simp [h]
    | some j => cases j <;> simp [h]

theorem runValidate_conservation (now : String) (lines : List InputLine) :
    (runValidate now lines).1.length + (runValidate now lines).2.length
      = (lines.filter (fun l => ¬ pyStrip l.text = "")).length := by
  induction lines with
  | nil => rfl
  | cons l rest ih =>
      simp only [runValidate]
      cases hp : processLine now l with
      | none =>
          have hb : pyStrip l.text = "" := (processLine_none_iff now l).mp hp
          simp [List.filter_cons, hb, ih]
      | some v =>
          have hb : ¬ pyStrip l.text = "" := by
            intro hc
            exact absurd ((processLine_none_iff now l).mpr hc) (by simp [hp])
          have hf : List.filter (fun x => ¬ pyStrip x.text = "") (l :: rest)
              = l :: List.filter (fun x => ¬ pyStrip x.text = "") rest := by
            simp [List.filter_cons, hb]
          cases v with
          | clean c =>
              rw [hf]
              simp only [List.length_cons]
              omega
          | reject r =>
              rw [hf]
              simp only [List.length_cons]
              omega

/-- C2: clean rows plus reject rows equals the non-blank line count: a blank
line is skipped (processed to nothing), and every non-blank line yields
exactly one row in exactly one stream. -/
theorem C2_total_conservation (now : String) (files : List (List InputLine)) :
    (runValidateFiles now files).1.length + (runValidateFiles now files).2.length
      = (files.flatten.filter (fun l => ¬ pyStrip l.text = "")).length ∧
    ∀ l : InputLine, processLine now l = none ↔ pyStrip l.text = "" :=
  ⟨runValidate_conservation now files.flatten, fun l => processLine_none_iff now l⟩

theorem clean_no_failure {now : String} {raw : RawRecord} {c : CleanRecord}
    (h : validate_event now raw = VResult.clean c) : ruleFailure raw = none := by
  have := rejectCode_eq_ruleFailure now raw
  rw [h] at this
  simpa [VResult.rejectCode] using this.symm

/-- C3 (code bug): the claimed CleanRecord invariant fails in the code.  On
a record valid in every other field whose `confidence_score` is the string
`"nan"`, `float()` succeeds with `nan`, and since `nan < 0.0` and
`nan > 1.0` are both false in Python, rules 4 and 5 both pass and
`validate_event` emits a clean record whose `confidence_score` is `nan` —
not a float in `[0, 1]` — contrary to the script's own contract comment
(`confidence_score required and numeric [0..1]`) and its reject detail
(`confidence_score must be between 0 and 1`). -/
theorem C3_nan_escape :
    _as_float (Json.str "nan") = some PyFloat.nan ∧
    PyFloat.ltB PyFloat.nan (PyFloat.num 0) = false ∧
    PyFloat.ltB (PyFloat.num 1) PyFloat.nan = false ∧
    validate_event "t0"
      [("decision_id", Json.str "d1"), ("decision_type", Json.str "approve"),
       ("model_version", Json.str "v1"), ("confidence_score", Json.str "nan"),
       ("risk_band", Json.str "LOW"), ("policy_id", Json.str "p1"),
       ("decision_ts", Json.str "2024-01-02T03:04:05Z")]
      = VResult.clean ⟨"d1", "approve", "v1", PyFloat.nan, "LOW", "p1", "UNKNOWN",
          "2024-01-02T03:04:05Z", Json.null, none, Json.null, "t0"⟩ ∧
    ∀ q : ℚ, PyFloat.nan ≠ PyFloat.num q :=
  ⟨rfl, rfl, rfl, rfl, fun _ h => PyFloat.noConfusion h⟩

theorem toUTC_id {dt : PyDateTime} (hv : dt.validB = true) (htz : dt.tz = some 0) :
    toUTC dt = some dt := by
  obtain ⟨y, mo, d, h, mi, s, us, tz⟩ := dt
  simp only [PyDateTime.validB, decide_eq_true_eq] at hv
  obtain ⟨hymd, hh, hmi, hs, hus⟩ := hv
  simp only at htz
  subst htz
  unfold toUTC
  simp only []
  rw [if_neg (by push_cast; omega), if_neg (by push_cast; omega)]
  simp only [Option.some.injEq, PyDateTime.mk.injEq]
  refine ⟨trivial, trivial, trivial, by push_cast; omega, by push_cast; omega,
    trivial, trivial, trivial⟩

theorem parse_iso_idem {dt : PyDateTime} (hv : dt.validB = true)
    (htz : dt.tz = some 0) :
    _parse_iso_ts (Json.str ⟨isoZChars dt⟩) = some ⟨isoZChars dt⟩ := by
  unfold _parse_iso_ts
  simp only []
  rw [stripChars_isoZ]
  have hne : (isoZChars dt).isEmpty = false := by
    rw [isoZChars_shape]
    rfl
  rw [hne]
  simp only [Bool.false_eq_true, if_false]
  rw [fromiso_isoZ dt hv]
  have he : (⟨dt.year, dt.month, dt.day, dt.hour, dt.minute, dt.second, dt.micro,
      some 0⟩ : PyDateTime) = dt := by
    obtain ⟨y, mo, d, h, mi, s, us, tz⟩ := dt
    simp only at htz
    subst htz
    rfl
  dsimp only
  rw [if_neg (by simp), he, toUTC_id hv htz]

/-- C4 counterexample: the aggregator's `_day_bucket` takes the calendar day
in the timestamp's own offset, without UTC conversion, so it disagrees with
day-of ∘ normalize on an offset timestamp that crosses midnight in UTC. -/
theorem C4_day_bucket_counterexample :
    _day_bucket (Json.str "2024-01-01T01:00:00+05:00") = "2024-01-01" ∧
    dayOfNormalized (Json.str "2024-01-01T01:00:00+05:00") = "2023-12-31" ∧
    _day_bucket (Json.str "2024-01-01T01:00:00+05:00")
      ≠ dayOfNormalized (Json.str "2024-01-01T01:00:00+05:00") :=
  ⟨rfl, rfl, by decide⟩

/-- C4 (amended): on every normalizer output — in particular the
`decision_ts` of every clean record — `_day_bucket` agrees with
day-of ∘ normalize, both equal to the canonical timestamp's `YYYY-MM-DD`
prefix (its UTC calendar day); and any string the shared parser fails on
buckets to the `UNKNOWN_DAY` sentinel instead of being rejected. -/
theorem C4_day_bucket_refinement (v : Json) (ts : String)
    (h : _parse_iso_ts v = some ts) :
    _day_bucket (Json.str ts) = dayOfNormalized (Json.str ts) ∧
    _day_bucket (Json.str ts) = ⟨ts.data.take 10⟩ ∧
    (∀ s : String, fromisoChars (zFix (stripChars s.data)) = none →
      _day_bucket (Json.str s) = "UNKNOWN_DAY") := by
  obtain ⟨dt, hv, htz, rfl⟩ := parse_iso_ts_shape h
  refine ⟨?_, ?_, ?_⟩
  · rw [day_bucket_isoZ dt hv]
    unfold dayOfNormalized
    rw [parse_iso_idem hv htz]
    dsimp only
    rw [isoZ_take10]
  · rw [day_bucket_isoZ dt hv]
    dsimp only
    rw [isoZ_take10]
  · intro s hhs
    unfold _day_bucket
    simp only []
    split_ifs with hemp
    · rfl
    · rw [hhs]

/-- Witness for `C4_day_bucket_refinement`: the normalized form of
`2024-01-01T10:00:00+05:00` buckets to its own UTC day. -/
theorem C4_day_bucket_refinement_witness :
    _parse_iso_ts (Json.str "2024-01-01T10:00:00+05:00")
      = some "2024-01-01T05:00:00Z" ∧
    _day_bucket (Json.str "2024-01-01T05:00:00Z")
      = dayOfNormalized (Json.str "2024-01-01T05:00:00Z") :=
  ⟨rfl, (C4_day_bucket_refinement (Json.str "2024-01-01T10:00:00+05:00")
    "2024-01-01T05:00:00Z" rfl).1⟩

/-- C5 counterexample: a whitespace-only `risk_band` is truthy in Python, so
the `or "UNKNOWN"` default keeps it and `.strip()` reduces it to the empty
string — the key component is `""`, not `"UNKNOWN"` as the claim states. -/
theorem C5_key_defaulting_counterexample :
    riskKey [("risk_band", Json.str " ")] = some "" ∧
    riskKey [("risk_band", Json.str " ")] ≠ some "UNKNOWN" :=
  ⟨rfl, by decide⟩

/-- C5 (amended): a falsy (`None`/missing, empty string, `false`, `0`, empty
container) `risk_band` or `model_version` keys as `"UNKNOWN"`, and likewise
the reject `reject_reason_code`, which is additionally upper-cased; a
non-empty string keys as its stripped (and for rejects upper-cased) text, so
a whitespace-only value yields `""`, not `"UNKNOWN"`. -/
theorem C5_key_defaulting (row : RawRecord) :
    (pyTruthy (pyGet row "risk_band") = false → riskKey row = some "UNKNOWN") ∧
    (pyTruthy (pyGet row "model_version") = false → modelKey row = some "UNKNOWN") ∧
    (pyTruthy (pyGet row "reject_reason_code") = false → reasonKey row = some "UNKNOWN") ∧
    (∀ s : String, pyGet row "risk_band" = Json.str s → s ≠ "" →
      riskKey row = some (pyStrip s)) ∧
    (∀ s : String, pyGet row "model_version" = Json.str s → s ≠ "" →
      modelKey row = some (pyStrip s)) ∧
    (∀ s : String, pyGet row "reject_reason_code" = Json.str s → s ≠ "" →
      reasonKey row = some (pyUpper (pyStrip s))) := by
  have htruthy : ∀ s : String, s ≠ "" → pyTruthy (Json.str s) = true := by
    intro s hs
    cases s with
    | mk data =>
        cases data with
        | nil => exact absurd rfl hs
        | cons c cs => simp [pyTruthy]
  refine ⟨?_, ?_, ?_, ?_, ?_, ?_⟩
  · intro hf
    simp [riskKey, orDefault, hf, stripIfStr]
    rfl
  · intro hf
    simp [modelKey, orDefault, hf, stripIfStr]
    rfl
  · intro hf
    simp [reasonKey, orDefault, hf, stripIfStr]
    rfl
  · intro s hs hne
    simp [riskKey, orDefault, hs, htruthy s hne, stripIfStr]
  · intro s hs hne
    simp [modelKey, orDefault, hs, htruthy s hne, stripIfStr]
  · intro s hs hne
    simp [reasonKey, orDefault, hs, htruthy s hne, stripIfStr]

/-- Witness for `C5_key_defaulting`: a missing `risk_band` keys as
`"UNKNOWN"`, and a reject reason is upper-cased. -/
theorem C5_key_defaulting_witness :
    riskKey [] = some "UNKNOWN" ∧
    reasonKey [("reject_reason_code", Json.str "invalid_json")]
      = some (pyUpper (pyStrip "invalid_json")) :=
  ⟨(C5_key_defaulting []).1 (by rfl),
   ((C5_key_defaulting [("reject_reason_code", Json.str "invalid_json")]).2.2.2.2.2
     "invalid_json" (by rfl) (by decide))⟩

/-- C6: the Timestamp Normalizer on success returns a canonical ISO string
with a literal `Z` suffix — never a numeric offset — converting the
timestamp to UTC, and assuming UTC when the parsed value carries no offset;
blank-string and non-string inputs yield `none` (the embedding is a total
function, mirroring that the Python code never raises to its caller). -/
theorem C6_normalizer (v : Json) (ts : String) (h : _parse_iso_ts v = some ts) :
    (∃ body : List Char, ts.data = body ++ ['Z']) ∧
    _parse_iso_ts (Json.str "2024-01-01T10:00:00+05:00")
      = some "2024-01-01T05:00:00Z" ∧
    _parse_iso_ts (Json.str "2024-01-01T10:00:00") = some "2024-01-01T10:00:00Z" ∧
    (∀ s : String, pyStrip s = "" → _parse_iso_ts (Json.str s) = none) ∧
    (∀ w : Json, (∀ s : String, w ≠ Json.str s) → _parse_iso_ts w = none) := by
  refine ⟨?_, rfl, rfl, ?_, ?_⟩
  · obtain ⟨dt, hv, htz, rfl⟩ := parse_iso_ts_shape h
    exact ⟨dateChars dt.year dt.month dt.day ++
      'T' :: timeChars dt.hour dt.minute dt.second dt.micro, by simp [isoZChars]⟩
  · intro s hb
    have hb' : stripChars s.data = [] := congrArg String.data hb
    unfold _parse_iso_ts
    simp [hb']
  · intro w hns
    cases w with
    | str s => exact absurd rfl (hns s)
    | null => rfl
    | bool b => rfl
    | num q => rfl
    | arr es => rfl
    | obj fs => rfl

/-- Witness for `C6_normalizer`: the spec's round-trip example, whose output
carries the literal `Z` suffix. -/
theorem C6_normalizer_witness :
    _parse_iso_ts (Json.str "2024-01-01T10:00:00+05:00")
      = some "2024-01-01T05:00:00Z" ∧
    ∃ body : List Char, ("2024-01-01T05:00:00Z" : String).data = body ++ ['Z'] :=
  ⟨rfl, (C6_normalizer (Json.str "2024-01-01T10:00:00+05:00")
    "2024-01-01T05:00:00Z" rfl).1⟩

theorem validate_event_shape (now : String) (raw : RawRecord) :
    (∃ c, validate_event now raw = VResult.clean c) ∨
    ∃ r0, validate_event now raw = VResult.reject r0 ∧
      r0.raw_payload = Payload.serialized raw ∧ r0.facility_code = none := by
  by_cases h1 : pyStrip (_safe_str (pyGet raw "decision_id")) = ""
  · exact Or.inr ⟨⟨now, none, "MISSING_DECISION_ID",
      "decision_id is required", Payload.serialized raw, none⟩,
      by simp [validate_event, h1], rfl, rfl⟩
  by_cases h2 : pyStrip (_safe_str (pyGet raw "decision_type")) = ""
  · exact Or.inr ⟨⟨now, some (pyStrip (_safe_str (pyGet raw "decision_id"))), "MISSING_DECISION_TYPE",
      "decision_type is required", Payload.serialized raw, none⟩,
      by simp [validate_event, h1, h2], rfl, rfl⟩
  by_cases h3 : blankModelVersion (pyGet raw "model_version") = true
  · exact Or.inr ⟨⟨now, some (pyStrip (_safe_str (pyGet raw "decision_id"))), "MISSING_MODEL_VERSION",
      "model_version is required and must be non-empty", Payload.serialized raw, none⟩,
      by simp [validate_event, h1, h2, h3], rfl, rfl⟩
  by_cases h4 : _as_float (pyGet raw "confidence_score") = none
  · exact Or.inr ⟨⟨now, some (pyStrip (_safe_str (pyGet raw "decision_id"))), "MISSING_CONFIDENCE_SCORE",
      "confidence_score is required and must be numeric", Payload.serialized raw, none⟩,
      by simp [validate_event, h1, h2, h3, h4], rfl, rfl⟩
  by_cases h5 : PyFloat.ltB ((_as_float (pyGet raw "confidence_score")).getD (PyFloat.num 0))
        (PyFloat.num 0) = true ∨
      PyFloat.ltB (PyFloat.num 1)
        ((_as_float (pyGet raw "confidence_score")).getD (PyFloat.num 0)) = true
  · exact Or.inr ⟨⟨now, some (pyStrip (_safe_str (pyGet raw "decision_id"))), "INVALID_CONFIDENCE_SCORE",
      "confidence_score must be between 0 and 1", Payload.serialized raw, none⟩,
      by simp [validate_event, h1, h2, h3, h4, h5], rfl, rfl⟩
  by_cases h6 : pyUpper (pyStrip (_safe_str (pyGet raw "risk_band"))) ∈ VALID_RISK_BANDS
  on_goal 2 =>
    exact Or.inr ⟨⟨now, some (pyStrip (_safe_str (pyGet raw "decision_id"))), "INVALID_RISK_BAND",
      "risk_band must be one of [HIGH, LOW, MEDIUM]", Payload.serialized raw, none⟩,
      by simp [validate_event, h1, h2, h3, h4, h5, h6], rfl, rfl⟩
  by_cases h7 : pyStrip (_safe_str (pyGet raw "policy_id")) = ""
  · exact Or.inr ⟨⟨now, some (pyStrip (_safe_str (pyGet raw "decision_id"))), "MISSING_POLICY_ID",
      "policy_id is required", Payload.serialized raw, none⟩,
      by simp [validate_event, h1, h2, h3, h4, h5, h6, h7], rfl, rfl⟩
  by_cases h8 : _parse_iso_ts (pyGet raw "decision_ts") = none
  · exact Or.inr ⟨⟨now, some (pyStrip (_safe_str (pyGet raw "decision_id"))), "INVALID_DECISION_TS",
      "decision_ts must be ISO parseable", Payload.serialized raw, none⟩,
      by simp [validate_event, h1, h2, h3, h4, h5, h6, h7, h8], rfl, rfl⟩
  · exact Or.inl ⟨⟨pyStrip (_safe_str (pyGet raw "decision_id")),
      pyStrip (_safe_str (pyGet raw "decision_type")),
      pyStrip (_safe_str (pyGet raw "model_version")),
      pyRound4F ((_as_float (pyGet raw "confidence_score")).getD (PyFloat.num 0)),
      pyUpper (pyStrip (_safe_str (pyGet raw "risk_band"))),
      pyStrip (_safe_str (pyGet raw "policy_id")),
      (if pyStrip (_safe_str (pyGet raw "facility_code")) = "" then "UNKNOWN"
       else pyStrip (_safe_str (pyGet raw "facility_code"))),
      (_parse_iso_ts (pyGet raw "decision_ts")).getD "",
      pyGet raw "input_features_hash",
      (match pyGet raw "override_flag" with
       | Json.null => none
       | v => some (pyTruthy v)),
      pyGet raw "override_reason_code", now⟩,
      by simp [validate_event, h1, h2, h3, h4, h5, h6, h7, h8]⟩

theorem validate_event_reject_fields {now : String} {raw : RawRecord}
    {r0 : RejectRecord} (hv : validate_event now raw = VResult.reject r0) :
    r0.raw_payload = Payload.serialized raw ∧ r0.facility_code = none := by
  rcases validate_event_shape now raw with ⟨c, hc⟩ | ⟨r1, hr1, hp, hf⟩
  · rw [hc] at hv
    exact (VResult.noConfusion hv)
  · rw [hr1] at hv
    injection hv with h
    exact ⟨h ▸ hp, h ▸ hf⟩

/-- C7: a non-blank line that does not parse to a JSON object becomes an
`INVALID_JSON` reject whose `raw_payload` is the raw (stripped) line text
itself — not a re-serialization — bypassing the Validator, with no
`facility_code` field; whereas every reject that came through the Validator
carries the serialized record and a non-empty `facility_code`, defaulted to
`"UNKNOWN"`. -/
theorem C7_invalid_json (now : String) (l : InputLine)
    (hnb : ¬ pyStrip l.text = "") :
    ((match l.parsed with
      | some (Json.obj _) => False
      | _ => True) →
      processLine now l = some (VResult.reject ⟨now, none, "INVALID_JSON",
        "Line is not valid JSON object", Payload.text (pyStrip l.text), none⟩)) ∧
    (∀ raw : RawRecord, ∀ r : RejectRecord, l.parsed = some (Json.obj raw) →
      processLine now l = some (VResult.reject r) →
      (∃ fc, r.facility_code = some fc ∧ fc ≠ "") ∧
      r.raw_payload = Payload.serialized raw) := by
  constructor
  · intro hno
    unfold processLine
    simp only []
    rw [if_neg hnb]
    cases hp : l.parsed with
    | none => rfl
    | some j =>
        cases j with
        | obj o => rw [hp] at hno; simp at hno
        | null => rfl
        | bool b => rfl
        | num q => rfl
        | str s => rfl
        | arr es => rfl
  · intro raw r hp hr
    unfold processLine at hr
    simp only [] at hr
    rw [if_neg hnb, hp] at hr
    dsimp only at hr
    cases hv : validate_event now raw with
    | clean c =>
        rw [hv] at hr
        injection hr with h
        exact (VResult.noConfusion h)
    | reject r0 =>
        rw [hv] at hr
        simp only [Option.some.injEq, VResult.reject.injEq] at hr
        subst hr
        constructor
        · by_cases hfc : pyStrip (_safe_str (pyGet raw "facility_code")) = ""
          · exact ⟨"UNKNOWN", by simp [hfc], by decide⟩
          · exact ⟨pyStrip (_safe_str (pyGet raw "facility_code")),
              by simp [hfc], hfc⟩
        · exact (validate_event_reject_fields hv).1

/-- Witness for `C7_invalid_json`: a malformed line becomes the
`INVALID_JSON` reject with the raw text as payload and no facility code. -/
theorem C7_invalid_json_witness :
    processLine "t0" ⟨"oops \x7b", none⟩ = some (VResult.reject ⟨"t0", none,
      "INVALID_JSON", "Line is not valid JSON object",
      Payload.text (pyStrip "oops \x7b"), none⟩) :=
  (C7_invalid_json "t0" ⟨"oops \x7b", none⟩ (by decide)).1 (by trivial)

theorem validate_event_clean_conf {now : String} {raw : RawRecord} {c : CleanRecord}
    (hc : validate_event now raw = VResult.clean c) :
    c.confidence_score
      = pyRound4F ((_as_float (pyGet raw "confidence_score")).getD (PyFloat.num 0)) := by
  have hrf := clean_no_failure hc
  unfold ruleFailure at hrf
  split_ifs at hrf with h1 h2 h3 h4 h5 h6 h7 h8
  have hveq : validate_event now raw = VResult.clean ⟨pyStrip (_safe_str (pyGet raw "decision_id")),
      pyStrip (_safe_str (pyGet raw "decision_type")),
      pyStrip (_safe_str (pyGet raw "model_version")),
      pyRound4F ((_as_float (pyGet raw "confidence_score")).getD (PyFloat.num 0)),
      pyUpper (pyStrip (_safe_str (pyGet raw "risk_band"))),
      pyStrip (_safe_str (pyGet raw "policy_id")),
      (if pyStrip (_safe_str (pyGet raw "facility_code")) = "" then "UNKNOWN"
       else pyStrip (_safe_str (pyGet raw "facility_code"))),
      (_parse_iso_ts (pyGet raw "decision_ts")).getD "",
      pyGet raw "input_features_hash",
      (match pyGet raw "override_flag" with
       | Json.null => none
       | v => some (pyTruthy v)),
      pyGet raw "override_reason_code", now⟩ := by
    simp [validate_event, h1, h2, h3, h4, h5, h6, h7, h8]
  rw [hc] at hveq
  injection hveq with h
  subst h
  rfl

/-- C9 counterexample: the claim fails in two ways.  A record whose only
field is a coercible in-range `confidence_score` is still rejected (for the
missing `decision_id`), so it is not "accepted"; and an otherwise fully
valid record with `confidence_score` the numeric string `"0.00001"` is
accepted but stores the 4-decimal rounding `0`, not the coerced value. -/
theorem C9_coercion_counterexample :
    ((validate_event "t0" [("confidence_score", Json.str "0.5")]).rejectCode
       = some "MISSING_DECISION_ID") ∧
    (∃ c, validate_event "t0"
        [("decision_id", Json.str "d1"), ("decision_type", Json.str "t"),
         ("model_version", Json.str "v1"),
         ("confidence_score", Json.str "0.00001"),
         ("risk_band", Json.str "LOW"), ("policy_id", Json.str "p1"),
         ("decision_ts", Json.str "2024-01-02T03:04:05Z")] = VResult.clean c ∧
       _as_float (Json.str "0.00001") = some (PyFloat.num (1 / 100000 : ℚ)) ∧
       c.confidence_score = PyFloat.num 0 ∧ (0 : ℚ) ≠ 1 / 100000) := by
  have haf : _as_float (Json.str "0.00001") = some (PyFloat.num (1 / 100000 : ℚ)) := by
    have h0 : _as_float (Json.str "0.00001") = some (PyFloat.num (mkRat 1 100000)) := by
      decide
    have h1 : (mkRat 1 100000 : ℚ) = 1 / 100000 := by
      rw [Rat.mkRat_eq_div]
      norm_num
    rw [h0, h1]
  constructor
  · rfl
  · refine ⟨⟨"d1", "t", "v1",
      pyRound4F ((_as_float (Json.str "0.00001")).getD (PyFloat.num 0)),
      "LOW", "p1", "UNKNOWN", "2024-01-02T03:04:05Z", Json.null, none, Json.null,
      "t0"⟩, rfl, haf, ?_, by norm_num⟩
    show pyRound4F ((_as_float (Json.str "0.00001")).getD (PyFloat.num 0)) = PyFloat.num 0
    rw [haf]
    show PyFloat.num (pyRound4 (1 / 100000 : ℚ)) = PyFloat.num 0
    have hr : pyRound4 (1 / 100000 : ℚ) = 0 := by
      unfold pyRound4 roundHalfEven
      have hmul : (1 / 100000 : ℚ) * 10000 = 1 / 10 := by norm_num
      have hfl : ⌊(1 / 10 : ℚ)⌋ = 0 := by
        rw [Int.floor_eq_iff]
        norm_num
      rw [hmul, hfl]
      norm_num
    rw [hr]

/-- C9 (amended): a coercible `confidence_score` — a numeric string or a
boolean — is treated as numeric: the record is never rejected with
`MISSING_CONFIDENCE_SCORE`; when the coerced value is finite and lies in
`[0, 1]` the record is not rejected with `INVALID_CONFIDENCE_SCORE` either,
and if the record is accepted its stored `confidence_score` is the coerced
value rounded to 4 decimal places. -/
theorem C9_float_coercion (now : String) (raw : RawRecord) (f : PyFloat)
    (h : _as_float (pyGet raw "confidence_score") = some f) :
    ((validate_event now raw).rejectCode ≠ some "MISSING_CONFIDENCE_SCORE") ∧
    (∀ q : ℚ, f = PyFloat.num q → 0 ≤ q → q ≤ 1 →
      (validate_event now raw).rejectCode ≠ some "INVALID_CONFIDENCE_SCORE") ∧
    (∀ c, validate_event now raw = VResult.clean c →
      c.confidence_score = pyRound4F f) := by
  refine ⟨?_, ?_, ?_⟩
  · rw [rejectCode_eq_ruleFailure]
    unfold ruleFailure
    split_ifs with g1 g2 g3 g4 g5 g6 g7 g8 <;>
      first
        | (rw [g4] at h; exact absurd h (by simp))
        | decide
        | simp
  · intro q hq hq0 hq1
    rw [rejectCode_eq_ruleFailure]
    unfold ruleFailure
    split_ifs with g1 g2 g3 g4 g5 g6 g7 g8 <;>
      first
        | (exfalso
           rw [h] at g5
           subst hq
           simp only [Option.getD_some, PyFloat.ltB, decide_eq_true_eq] at g5
           rcases g5 with g5 | g5 <;> linarith)
        | decide
        | simp
  · intro c hc
    rw [validate_event_clean_conf hc, h]
    rfl

/-- Witness for `C9_float_coercion`: `confidence_score: true` coerces to
`1.0` and is stored as `round(1.0, 4)`. -/
theorem C9_float_coercion_witness :
    _as_float (pyGet [("decision_id", Json.str "d1"),
      ("decision_type", Json.str "t"), ("model_version", Json.str "v1"),
      ("confidence_score", Json.bool true), ("risk_band", Json.str "LOW"),
      ("policy_id", Json.str "p1"),
      ("decision_ts", Json.str "2024-01-02T03:04:05Z")] "confidence_score")
      = some (PyFloat.num 1) ∧
    ∀ c, validate_event "t0" [("decision_id", Json.str "d1"),
      ("decision_type", Json.str "t"), ("model_version", Json.str "v1"),
      ("confidence_score", Json.bool true), ("risk_band", Json.str "LOW"),
      ("policy_id", Json.str "p1"),
      ("decision_ts", Json.str "2024-01-02T03:04:05Z")] = VResult.clean c →
      c.confidence_score = pyRound4F (PyFloat.num 1) :=
  ⟨rfl, (C9_float_coercion "t0" [("decision_id", Json.str "d1"),
      ("decision_type", Json.str "t"), ("model_version", Json.str "v1"),
      ("confidence_score", Json.bool true), ("risk_band", Json.str "LOW"),
      ("policy_id", Json.str "p1"),
      ("decision_ts", Json.str "2024-01-02T03:04:05Z")] (PyFloat.num 1) rfl).2.2⟩

/-- C10: a line of the Silver or Rejects stream that is blank, fails JSON
parsing, or parses to a non-object is silently skipped by `_read_jsonl`:
removing it changes neither the records read nor either Gold output, and it
never produces an error or abort (`_read_jsonl` is total). -/
theorem C10_stream_skipping (junk : InputLine)
    (h : pyStrip junk.text = "" ∨
      (match junk.parsed with
       | some (Json.obj _) => False
       | _ => True)) :
    ∀ pre post other : List InputLine,
      _read_jsonl (pre ++ junk :: post) = _read_jsonl (pre ++ post) ∧
      curate_to_gold (pre ++ junk :: post) other = curate_to_gold (pre ++ post) other ∧
      curate_to_gold other (pre ++ junk :: post) = curate_to_gold other (pre ++ post) := by
  have hf : readLine? junk = none := by
    rcases h with hb | hno
    · simp [readLine?, hb]
    · unfold readLine?
      split_ifs with hb
      · rfl
      · cases hp : junk.parsed with
        | none => rfl
        | some j =>
            cases j with
            | obj o => rw [hp] at hno; simp at hno
            | null => rfl
            | bool b => rfl
            | num q => rfl
            | str s => rfl
            | arr es => rfl
  intro pre post other
  have hread : _read_jsonl (pre ++ junk :: post) = _read_jsonl (pre ++ post) := by
    unfold _read_jsonl
    rw [List.filterMap_append, List.filterMap_append,
      List.filterMap_cons_none hf]
  exact ⟨hread, by unfold curate_to_gold; rw [hread], by unfold curate_to_gold; rw [hread]⟩

/-- Witness for `C10_stream_skipping`: dropping an unparseable line from a
stream leaves the read records unchanged. -/
theorem C10_stream_skipping_witness :
    _read_jsonl [⟨"good", some (Json.obj [("risk_band", Json.str "LOW")])⟩,
        ⟨"oops", none⟩]
      = _read_jsonl [⟨"good", some (Json.obj [("risk_band", Json.str "LOW")])⟩] :=
  (C10_stream_skipping ⟨"oops", none⟩ (Or.inr (by trivial))
    [⟨"good", some (Json.obj [("risk_band", Json.str "LOW")])⟩] [] []).1

theorem char_toNat_inj {a b : Char} (h : a.toNat = b.toNat) : a = b := by
  cases a
  cases b
  have hv := UInt32.toNat.inj h
  subst hv
  rfl

theorem str_ext {s t : String} (h : s.data = t.data) : s = t :=
  congrArg String.mk h

theorem lexLt_irrefl : ∀ l : List Char, lexLt l l = false
  | [] => rfl
  | a :: as => by simp [lexLt, lexLt_irrefl as]

theorem lexLt_trans : ∀ a b c : List Char,
    lexLt a b = true → lexLt b c = true → lexLt a c = true := by
  intro a
  induction a with
  | nil =>
      intro b c hab hbc
      cases b with
      | nil => simp [lexLt] at hab
      | cons y ys =>
          cases c with
          | nil => simp [lexLt] at hbc
          | cons z zs => rfl
  | cons x xs ih =>
      intro b c hab hbc
      cases b with
      | nil => simp [lexLt] at hab
      | cons y ys =>
          cases c with
          | nil => simp [lexLt] at hbc
          | cons z zs =>
              simp only [lexLt] at hab hbc ⊢
              split_ifs at hab hbc ⊢ <;>
                first
                  | rfl
                  | omega
                  | exact ih ys zs hab hbc
                  | simp_all

theorem lexLt_trichot : ∀ a b : List Char,
    lexLt a b = true ∨ a = b ∨ lexLt b a = true := by
  intro a
  induction a with
  | nil =>
      intro b
      cases b <;> simp [lexLt]
  | cons x xs ih =>
      intro b
      cases b with
      | nil => simp [lexLt]
      | cons y ys =>
          rcases Nat.lt_trichotomy x.toNat y.toNat with h | h | h
          · left
            simp [lexLt, h]
          · have hxy : x = y := char_toNat_inj h
            subst hxy
            rcases ih ys with h2 | h2 | h2
            · left
              simp [lexLt, h2]
            · right
              left
              rw [h2]
            · right
              right
              simp [lexLt, h2]
          · right
            right
            simp [lexLt, h, (by omega : ¬ x.toNat < y.toNat)]

theorem lexLt_asymm {a b : List Char} (h : lexLt a b = true) : lexLt b a = false := by
  cases hba : lexLt b a
  · rfl
  · exfalso
    have hcontra := lexLt_trans a b a h hba
    rw [lexLt_irrefl] at hcontra
    exact Bool.false_ne_true hcontra

theorem strLt_connex {s t : String} (h1 : strLt s t = false)
    (h2 : strLt t s = false) : s = t := by
  rcases lexLt_trichot s.data t.data with h | h | h
  · have h1' : lexLt s.data t.data = false := h1
    rw [h1'] at h
    exact absurd h (by simp)
  · exact str_ext h
  · have h2' : lexLt t.data s.data = false := h2
    rw [h2'] at h
    exact absurd h (by simp)

theorem strLe_trans {a b c : String} (h1 : strLt b a = false)
    (h2 : strLt c b = false) : strLt c a = false := by
  cases hca : strLt c a
  · rfl
  · exfalso
    have hca' : lexLt c.data a.data = true := hca
    have h2' : lexLt c.data b.data = false := h2
    rcases lexLt_trichot a.data b.data with h | h | h
    · have hcb := lexLt_trans _ _ _ hca' h
      rw [h2'] at hcb
      exact Bool.false_ne_true hcb
    · rw [h] at hca'
      rw [h2'] at hca'
      exact Bool.false_ne_true hca'
    · have h1' : lexLt b.data a.data = false := h1
      rw [h1'] at h
      exact Bool.false_ne_true h

theorem keyLe3_total : ∀ a b : String × String × String, keyLe3 a b ∨ keyLe3 b a := by
  intro a b
  cases hab : strLt a.1 b.1
  · cases hba : strLt b.1 a.1
    · have he : a.1 = b.1 := strLt_connex hab hba
      cases hab2 : strLt a.2.1 b.2.1
      · cases hba2 : strLt b.2.1 a.2.1
        · have he2 : a.2.1 = b.2.1 := strLt_connex hab2 hba2
          cases hab3 : strLt b.2.2 a.2.2
          · exact Or.inl (Or.inr ⟨he, Or.inr ⟨he2, hab3⟩⟩)
          · have h3 : strLt a.2.2 b.2.2 = false := lexLt_asymm hab3
            exact Or.inr (Or.inr ⟨he.symm, Or.inr ⟨he2.symm, h3⟩⟩)
        · exact Or.inr (Or.inr ⟨he.symm, Or.inl hba2⟩)
      · exact Or.inl (Or.inr ⟨he, Or.inl hab2⟩)
    · exact Or.inr (Or.inl hba)
  · exact Or.inl (Or.inl hab)

theorem keyLe3_trans : ∀ a b c : String × String × String,
    keyLe3 a b → keyLe3 b c → keyLe3 a c := by
  intro a b c hab hbc
  unfold keyLe3 at hab hbc ⊢
  rcases hab with h1 | ⟨e1, hab2⟩
  · rcases hbc with h2 | ⟨e2, _⟩
    · exact Or.inl (lexLt_trans _ _ _ h1 h2)
    · exact Or.inl (e2 ▸ h1)
  · rcases hbc with h2 | ⟨e2, hbc2⟩
    · exact Or.inl (e1 ▸ h2)
    · refine Or.inr ⟨e1.trans e2, ?_⟩
      rcases hab2 with h3 | ⟨e3, hab3⟩
      · rcases hbc2 with h4 | ⟨e4, _⟩
        · exact Or.inl (lexLt_trans _ _ _ h3 h4)
        · exact Or.inl (e4 ▸ h3)
      · rcases hbc2 with h4 | ⟨e4, hbc3⟩
        · exact Or.inl (e3 ▸ h4)
        · exact Or.inr ⟨e3.trans e4, strLe_trans hab3 hbc3⟩

theorem keyLe2_total : ∀ a b : String × String, keyLe2 a b ∨ keyLe2 b a := by
  intro a b
  cases hab : strLt a.1 b.1
  · cases hba : strLt b.1 a.1
    · have he : a.1 = b.1 := strLt_connex hab hba
      cases hab2 : strLt b.2 a.2
      · exact Or.inl (Or.inr ⟨he, hab2⟩)
      · have h2 : strLt a.2 b.2 = false := lexLt_asymm hab2
        exact Or.inr (Or.inr ⟨he.symm, h2⟩)
    · exact Or.inr (Or.inl hba)
  · exact Or.inl (Or.inl hab)

theorem keyLe2_trans : ∀ a b c : String × String,
    keyLe2 a b → keyLe2 b c → keyLe2 a c := by
  intro a b c hab hbc
  unfold keyLe2 at hab hbc ⊢
  rcases hab with h1 | ⟨e1, hab2⟩
  · rcases hbc with h2 | ⟨e2, _⟩
    · exact Or.inl (lexLt_trans _ _ _ h1 h2)
    · exact Or.inl (e2 ▸ h1)
  · rcases hbc with h2 | ⟨e2, hbc2⟩
    · exact Or.inl (e1 ▸ h2)
    · exact Or.inr ⟨e1.trans e2, strLe_trans hab2 hbc2⟩

instance : IsTotal ((String × String × String) × ℕ) decItemLe :=
  ⟨fun a b => keyLe3_total a.1 b.1⟩

instance : IsTrans ((String × String × String) × ℕ) decItemLe :=
  ⟨fun a b c => keyLe3_trans a.1 b.1 c.1⟩

instance : IsTotal ((String × String) × ℕ) rejItemLe :=
  ⟨fun a b => keyLe2_total a.1 b.1⟩

instance : IsTrans ((String × String) × ℕ) rejItemLe :=
  ⟨fun a b c => keyLe2_trans a.1 b.1 c.1⟩

theorem bump_keys {κ : Type} [DecidableEq κ] (k : κ) :
    ∀ m : List (κ × ℕ), (bump k m).map Prod.fst
      = if k ∈ m.map Prod.fst then m.map Prod.fst else m.map Prod.fst ++ [k]
  | [] => by simp [bump]
  | (k', c) :: t => by
      by_cases hk : k' = k
      · subst hk
        simp [bump]
      · have ih := bump_keys k t
        simp only [bump, if_neg hk, List.map_cons, ih]
        by_cases hmem : k ∈ t.map Prod.fst
        · simp [hmem, List.mem_cons, Ne.symm hk]
        · simp [hmem, List.mem_cons, Ne.symm hk]

theorem bump_nodup {κ : Type} [DecidableEq κ] (k : κ) (m : List (κ × ℕ))
    (hm : (m.map Prod.fst).Nodup) : ((bump k m).map Prod.fst).Nodup := by
  rw [bump_keys]
  split_ifs with hmem
  · exact hm
  · simp [List.nodup_append, hm, hmem]

theorem foldl_bump_nodup {κ β : Type} [DecidableEq κ] :
    ∀ (ps : List (κ × β)) (m : List (κ × ℕ)), (m.map Prod.fst).Nodup →
      ((ps.foldl (fun acc kr => bump kr.1 acc) m).map Prod.fst).Nodup
  | [], _, hm => hm
  | p :: ps, m, hm => foldl_bump_nodup ps (bump p.1 m) (bump_nodup p.1 m hm)

theorem goldDecisions_sorted {rows : List RawRecord} {out : List GoldDecisionRow}
    (h : goldDecisions rows = some out) :
    List.Pairwise (fun a b =>
      keyLe3 (a.decision_day, a.risk_band, a.model_version)
        (b.decision_day, b.risk_band, b.model_version) ∧
      (a.decision_day, a.risk_band, a.model_version)
        ≠ (b.decision_day, b.risk_band, b.model_version)) out ∧
    (out.map (fun a => (a.decision_day, a.risk_band, a.model_version))).Nodup := by
  unfold goldDecisions at h
  cases hm : rows.mapM (fun r => (decisionKey r).map (fun k => (k, r))) with
  | none => rw [hm] at h; exact absurd h (by simp)
  | some pairs =>
      rw [hm] at h
      simp only [Option.some.injEq] at h
      subst h
      have hnodup : ((pairs.foldl (fun m kr => bump kr.1 m) []).map Prod.fst).Nodup :=
        foldl_bump_nodup pairs [] (by simp)
      have hsorted := List.sorted_insertionSort decItemLe
        (pairs.foldl (fun m kr => bump kr.1 m) [])
      have hperm := List.perm_insertionSort decItemLe
        (pairs.foldl (fun m kr => bump kr.1 m) [])
      have hnodup2 : (((pairs.foldl (fun m kr => bump kr.1 m) []).insertionSort
          decItemLe).map Prod.fst).Nodup :=
        ((hperm.map Prod.fst).nodup_iff).mpr hnodup
      constructor
      · rw [List.pairwise_map]
        exact hsorted.and ((List.pairwise_map).mp hnodup2)
      · rw [List.map_map]
        exact hnodup2

theorem goldRejects_sorted {rows : List RawRecord} {out : List GoldRejectRow}
    (h : goldRejects rows = some out) :
    List.Pairwise (fun a b =>
      keyLe2 (a.reject_day, a.reject_reason_code)
        (b.reject_day, b.reject_reason_code) ∧
      (a.reject_day, a.reject_reason_code) ≠ (b.reject_day, b.reject_reason_code)) out ∧
    (out.map (fun a => (a.reject_day, a.reject_reason_code))).Nodup := by
  unfold goldRejects at h
  cases hm : rows.mapM (fun r => (rejectKey r).map (fun k => (k, r))) with
  | none => rw [hm] at h; exact absurd h (by simp)
  | some pairs =>
      rw [hm] at h
      simp only [Option.some.injEq] at h
      subst h
      have hnodup : ((pairs.foldl (fun m kr => bump kr.1 m) []).map Prod.fst).Nodup :=
        foldl_bump_nodup pairs [] (by simp)
      have hsorted := List.sorted_insertionSort rejItemLe
        (pairs.foldl (fun m kr => bump kr.1 m) [])
      have hperm := List.perm_insertionSort rejItemLe
        (pairs.foldl (fun m kr => bump kr.1 m) [])
      have hnodup2 : (((pairs.foldl (fun m kr => bump kr.1 m) []).insertionSort
          rejItemLe).map Prod.fst).Nodup :=
        ((hperm.map Prod.fst).nodup_iff).mpr hnodup
      constructor
      · rw [List.pairwise_map]
        exact hsorted.and ((List.pairwise_map).mp hnodup2)
      · rw [List.map_map]
        exact hnodup2

/-- C8: each Gold output is strictly ordered ascending by its full key tuple
(lexicographic via Python tuple-of-strings comparison), and no key tuple is
repeated. -/
theorem C8_gold_sorted (silverRows rejectRows : List RawRecord)
    (dout : List GoldDecisionRow) (rout : List GoldRejectRow)
    (hd : goldDecisions silverRows = some dout)
    (hr : goldRejects rejectRows = some rout) :
    List.Pairwise (fun a b =>
      keyLe3 (a.decision_day, a.risk_band, a.model_version)
        (b.decision_day, b.risk_band, b.model_version) ∧
      (a.decision_day, a.risk_band, a.model_version)
        ≠ (b.decision_day, b.risk_band, b.model_version)) dout ∧
    (dout.map (fun a => (a.decision_day, a.risk_band, a.model_version))).Nodup ∧
    List.Pairwise (fun a b =>
      keyLe2 (a.reject_day, a.reject_reason_code)
        (b.reject_day, b.reject_reason_code) ∧
      (a.reject_day, a.reject_reason_code) ≠ (b.reject_day, b.reject_reason_code)) rout ∧
    (rout.map (fun a => (a.reject_day, a.reject_reason_code))).Nodup :=
  ⟨(goldDecisions_sorted hd).1, (goldDecisions_sorted hd).2,
   (goldRejects_sorted hr).1, (goldRejects_sorted hr).2⟩

/-- Witness for `C8_gold_sorted`: two reject rows arriving out of key order
are emitted sorted ascending with unique keys. -/
theorem C8_gold_sorted_witness :
    goldDecisions [] = some [] ∧
    goldRejects
        [[("rejected_at_utc", Json.str "2024-01-02T00:00:00Z"),
          ("reject_reason_code", Json.str "b")],
         [("rejected_at_utc", Json.str "2024-01-01T00:00:00Z"),
          ("reject_reason_code", Json.str "a")]]
      = some [⟨"2024-01-01", "A", 1⟩, ⟨"2024-01-02", "B", 1⟩] ∧
    List.Pairwise (fun a b : GoldRejectRow =>
      keyLe2 (a.reject_day, a.reject_reason_code)
        (b.reject_day, b.reject_reason_code) ∧
      (a.reject_day, a.reject_reason_code) ≠ (b.reject_day, b.reject_reason_code))
      [⟨"2024-01-01", "A", 1⟩, ⟨"2024-01-02", "B", 1⟩] :=
  ⟨rfl, rfl,
   (C8_gold_sorted []
     [[("rejected_at_utc", Json.str "2024-01-02T00:00:00Z"),
       ("reject_reason_code", Json.str "b")],
      [("rejected_at_utc", Json.str "2024-01-01T00:00:00Z"),
       ("reject_reason_code", Json.str "a")]]
     [] [⟨"2024-01-01", "A", 1⟩, ⟨"2024-01-02", "B", 1⟩] rfl rfl).2.2.1⟩

